import Mathlib

/-!
Verification development for the `mcp-brain-manager` repository.

We give a shallow embedding of the components the claims are about:

* `src/security/validators.ts` — the sensitive-data validator
  (`validateForSensitiveData` and the `SENSITIVE_PATTERNS` regex list);
* `src/brain-manager.ts` (the `BrainManagerV2` class) — the context store and
  update workflow (`proposeUpdate`, `confirmUpdate`, `switchProject`,
  `returnToPrevious`, `createProjectFromTemplate`);
* `src/semantic-router.ts` — the keyword classifier (`classify`).

Modelling conventions, used throughout:

* JavaScript values crossing the `any`-typed boundaries are modelled by the
  `JsonVal` inductive.  JS numbers are modelled as integers (no claim involves
  fractional payload numbers).
* Timestamps: the code stores ISO-8601 strings and converts back with
  `new Date(s).getTime()`, a lossless round trip at millisecond precision.
  We model a timestamp directly as the epoch-millisecond `Nat`, and render it
  with `isoStr` (an injective stand-in for `toISOString`).
* `JSON.parse(JSON.stringify(x))` deep copies are identities in a pure value
  model; the code deep-copies exactly where aliasing would otherwise be
  observable (stack snapshots, proposal contexts), which is what justifies
  using plain immutable values here.
* JS `Map` objects are modelled as association lists with the `alGet`/`alSet`/
  `alDelete` operations (insertion order preserved, `set` replaces in place),
  matching `Map` iteration semantics.
-/

namespace BrainManager

/-- JS/JSON value, as used for the `any`-typed update payloads. -/
inductive JsonVal where
  | str (s : String)
  | num (n : Int)
  | bool (b : Bool)
  | null
  | arr (elems : List JsonVal)
  | obj (fields : List (String × JsonVal))

/-- JS truthiness of a value (`[]` and objects are truthy, `"" 0 false null` are not). -/
def jsTruthyV : JsonVal → Bool
  | JsonVal.str s => !(s == "")
  | JsonVal.num n => !(n == 0)
  | JsonVal.bool b => b
  | JsonVal.null => false
  | JsonVal.arr _ => true
  | JsonVal.obj _ => true

/-- Truthiness of an optional property (`undefined` is falsy). -/
def jsTruthy : Option JsonVal → Bool
  | none => false
  | some v => jsTruthyV v

/-- Property access `v.k` on an object; `none` models `undefined`. -/
def getField (v : JsonVal) (k : String) : Option JsonVal :=
  match v with
  | JsonVal.obj fs => (fs.find? (fun e => e.1 == k)).map (fun e => e.2)
  | _ => none

/-- JSON string escaping, as performed by `JSON.stringify` (ASCII escapes). -/
def jsonEscapeChar (c : Char) : String :=
  if c == '"' then "\\\""
  else if c == '\\' then "\\\\"
  else if c == '\n' then "\\n"
  else if c == '\r' then "\\r"
  else if c == '\t' then "\\t"
  else if c.val == 8 then "\\b"
  else if c.val == 12 then "\\f"
  else if c.val < 32 then
    "\\u00" ++ String.mk [hexDigit (c.val.toNat / 16), hexDigit (c.val.toNat % 16)]
  else String.mk [c]
where
  hexDigit (n : Nat) : Char :=
    if n < 10 then Char.ofNat (48 + n) else Char.ofNat (87 + n)

/-- A JSON string literal for `s` (quotes plus escaping). -/
def jsonQuote (s : String) : String :=
  "\"" ++ String.join (s.toList.map jsonEscapeChar) ++ "\""

mutual

/-- `JSON.stringify` for `JsonVal` (no spacing, insertion order of keys). -/
def stringifyJson : JsonVal → String
  | JsonVal.str s => jsonQuote s
  | JsonVal.num n => toString n
  | JsonVal.bool b => if b then "true" else "false"
  | JsonVal.null => "null"
  | JsonVal.arr xs => "[" ++ stringifyArr xs ++ "]"
  | JsonVal.obj fs => "\x7b" ++ stringifyObj fs ++ "\x7d"

def stringifyArr : List JsonVal → String
  | [] => ""
  | [x] => stringifyJson x
  | x :: y :: rest => stringifyJson x ++ "," ++ stringifyArr (y :: rest)

def stringifyObj : List (String × JsonVal) → String
  | [] => ""
  | [(k, v)] => jsonQuote k ++ ":" ++ stringifyJson v
  | (k, v) :: e :: rest => jsonQuote k ++ ":" ++ stringifyJson v ++ "," ++ stringifyObj (e :: rest)

end

mutual

/-- JS string coercion `String(v)` / template-literal interpolation of a value.
(Array display of `null` entries is approximated by the literal "null";
no claim inspects a displayed array.) -/
def jsDisplay : JsonVal → String
  | JsonVal.str s => s
  | JsonVal.num n => toString n
  | JsonVal.bool b => if b then "true" else "false"
  | JsonVal.null => "null"
  | JsonVal.arr xs => jsDisplayArr xs
  | JsonVal.obj _ => "[object Object]"

def jsDisplayArr : List JsonVal → String
  | [] => ""
  | [x] => jsDisplay x
  | x :: y :: rest => jsDisplay x ++ "," ++ jsDisplayArr (y :: rest)

end

/-- The string the validator pattern-matches against: strings are used as-is,
objects and arrays are `JSON.stringify`-ed, primitives go through `String()`
(note JS `typeof null === 'object'` but the code tests `value !== null`,
so `null` reaches the `String(value)` branch). -/
def jsValueString : JsonVal → String
  | JsonVal.str s => s
  | JsonVal.arr xs => stringifyJson (JsonVal.arr xs)
  | JsonVal.obj fs => stringifyJson (JsonVal.obj fs)
  | JsonVal.num n => toString n
  | JsonVal.bool b => if b then "true" else "false"
  | JsonVal.null => "null"

/-!
### Regex machinery for the `SENSITIVE_PATTERNS` list

Each regex from `validators.ts` is transcribed into a `List RItem`, a
sequential pattern over character classes.  The quantified items use committed
maximal munch: in every transcribed pattern the character class of a `many`,
`atLeast` or `opt`/`optStr` item is disjoint from the first characters the
following item can accept, so committed maximal munch decides exactly the same
matches (and the same `match[0]` strings) as JS backtracking regexes.
Searching tries every start position left to right, like `String.match`.
-/

/-- JS `\w`: `[A-Za-z0-9_]`. -/
def wdC (c : Char) : Bool := c.isAlphanum || c == '_'

/-- `[\w-]`. -/
def wdDashC (c : Char) : Bool := wdC c || c == '-'

/-- JS `\s` (the whitespace characters appearing in ASCII payloads). -/
def spC (c : Char) : Bool :=
  c == ' ' || c == '\t' || c == '\n' || c == '\r' || c.val == 11 || c.val == 12

/-- `[_-]` (also written `[-_]` in the source patterns). -/
def usDashC (c : Char) : Bool := c == '_' || c == '-'

/-- `[0-9a-f]` under the `/i` flag. -/
def hexCI (c : Char) : Bool :=
  c.isDigit || ('a' ≤ c.toLower && c.toLower ≤ 'f')

/-- One sequential item of a transcribed regex. -/
inductive RItem where
  | one (cls : Char → Bool)
  | opt (cls : Char → Bool)
  | optStr (lits : List Char)
  | many (cls : Char → Bool)
  | atLeast (cls : Char → Bool) (n : Nat)
  | exactly (cls : Char → Bool) (n : Nat)
  | boundary

/-- Longest prefix of `cs` inside class `cls`, and the remainder. -/
def splitTake (cls : Char → Bool) : List Char → List Char × List Char
  | [] => ([], [])
  | c :: cs =>
    if cls c then
      let p := splitTake cls cs
      (c :: p.1, p.2)
    else ([], c :: cs)

/-- The character preceding the rest of the input after consuming `chunk`. -/
def lastOrPrev (chunk : List Char) (prev : Option Char) : Option Char :=
  match chunk.getLast? with
  | some c => some c
  | none => prev

/-- Is an optional character a `\w` character (`none` = outside the string)? -/
def isWordOpt : Option Char → Bool
  | none => false
  | some c => wdC c

/-- Match the item list at the current position (`prev` is the character just
before it, for `\b`); returns the number of characters consumed. -/
def matchItems : List RItem → Option Char → List Char → Option Nat
  | [], _, _ => some 0
  | RItem.one cls :: rest, _, c :: cs =>
      if cls c then (matchItems rest (some c) cs).map (· + 1) else none
  | RItem.one _ :: _, _, [] => none
  | RItem.opt _ :: rest, prev, [] => matchItems rest prev []
  | RItem.opt cls :: rest, prev, c :: cs =>
      if cls c then (matchItems rest (some c) cs).map (· + 1)
      else matchItems rest prev (c :: cs)
  | RItem.optStr lits :: rest, prev, cs =>
      if lits.isPrefixOf cs then
        (matchItems rest (lastOrPrev lits prev) (cs.drop lits.length)).map (· + lits.length)
      else matchItems rest prev cs
  | RItem.many cls :: rest, prev, cs =>
      let p := splitTake cls cs
      (matchItems rest (lastOrPrev p.1 prev) p.2).map (· + p.1.length)
  | RItem.atLeast cls n :: rest, prev, cs =>
      let p := splitTake cls cs
      if n ≤ p.1.length then
        (matchItems rest (lastOrPrev p.1 prev) p.2).map (· + p.1.length)
      else none
  | RItem.exactly cls n :: rest, prev, cs =>
      let taken := cs.take n
      if taken.length == n && taken.all cls then
        (matchItems rest (lastOrPrev taken prev) (cs.drop n)).map (· + n)
      else none
  | RItem.boundary :: rest, prev, cs =>
      if isWordOpt prev != isWordOpt cs.head? then matchItems rest prev cs else none

/-- Leftmost match: try each start position; returns the suffix at the match
position together with the match length. -/
def searchAux (items : List RItem) (prev : Option Char) (cs : List Char) :
    Option (List Char × Nat) :=
  match matchItems items prev cs with
  | some n => some (cs, n)
  | none =>
    match cs with
    | [] => none
    | c :: cs' => searchAux items (some c) cs'

/-- `s.match(pattern)?.[0]` — the leftmost matched substring, if any. -/
def regexFirstMatch (items : List RItem) (s : String) : Option String :=
  match searchAux items none s.toList with
  | some (suffix, n) => some (String.mk (suffix.take n))
  | none => none

/-- Literal characters (case sensitive). -/
def litsOf (s : String) : List RItem :=
  s.toList.map (fun c => RItem.one (fun x => x == c))

/-- Literal characters under the `/i` flag (the source literals are lower case). -/
def litsCIOf (s : String) : List RItem :=
  s.toList.map (fun c => RItem.one (fun x => x.toLower == c))

/-- `\s*[:=]\s*["']?[\w-]{20,}` — shared tail of the key/value assignment
patterns. -/
def assignTail : List RItem :=
  [RItem.many spC, RItem.one (fun c => c == ':' || c == '='), RItem.many spC,
   RItem.opt (fun c => c == '"' || c == '\''), RItem.atLeast wdDashC 20]

/-- `\b(NAME[_-]?key|NAMEkey)\s*[:=]\s*["']?[\w-]{20,}/i` — the second
alternative is the first with the optional `[_-]?` absent, so a single
sequential pattern covers both (same matches, same `match[0]`). -/
def assignPattern (name : String) : List RItem :=
  [RItem.boundary] ++ litsCIOf name ++ [RItem.opt usDashC] ++ litsCIOf "key" ++ assignTail

/-- `\bPFX[-_][\w]{20,}` — common API-key prefix patterns (case sensitive). -/
def keyPrefixPattern (pfx : String) : List RItem :=
  [RItem.boundary] ++ litsOf pfx ++ [RItem.one usDashC, RItem.atLeast wdC 20]

/-- `[^:]+:[^@]+@` — credential tail of the database connection patterns. -/
def connTail : List RItem :=
  [RItem.atLeast (fun c => !(c == ':')) 1, RItem.one (fun c => c == ':'),
   RItem.atLeast (fun c => !(c == '@')) 1, RItem.one (fun c => c == '@')]

/-- A sensitive-data regex together with the description produced for it by
`getPatternDescription` (evaluated on each pattern's `source` by hand; the
`access_key` and AWS-secret patterns fall through to the default). -/
structure SensitivePattern where
  items : List RItem
  desc : String

/-- The `SENSITIVE_PATTERNS` array of `validators.ts`, in source order. -/
def SENSITIVE_PATTERNS : List SensitivePattern := [
  -- /\b(api[_-]?key|apikey)\s*[:=]\s*["']?[\w-]{20,}/i
  ⟨assignPattern "api", "API key"⟩,
  -- /\b(secret[_-]?key|secretkey)\s*[:=]\s*["']?[\w-]{20,}/i
  ⟨assignPattern "secret", "secret key"⟩,
  -- /\b(access[_-]?key|accesskey)\s*[:=]\s*["']?[\w-]{20,}/i
  ⟨assignPattern "access", "sensitive data pattern"⟩,
  -- /\b(private[_-]?key|privatekey)\s*[:=]\s*["']?[\w-]{20,}/i
  ⟨assignPattern "private", "private key"⟩,
  -- /\bsk[-_][\w]{20,}/
  ⟨keyPrefixPattern "sk", "Stripe-like secret key"⟩,
  -- /\bpk[-_][\w]{20,}/
  ⟨keyPrefixPattern "pk", "public/private key"⟩,
  -- /\bapi[-_][\w]{20,}/
  ⟨keyPrefixPattern "api", "API key"⟩,
  -- /\bkey[-_][\w]{20,}/
  ⟨keyPrefixPattern "key", "secret key"⟩,
  -- /\btoken[-_][\w]{20,}/
  ⟨keyPrefixPattern "token", "access token"⟩,
  -- /\bBearer\s+[\w-]+\.[\w-]+\.[\w-]+/
  ⟨[RItem.boundary] ++ litsOf "Bearer" ++
     [RItem.atLeast spC 1, RItem.atLeast wdDashC 1, RItem.one (fun c => c == '.'),
      RItem.atLeast wdDashC 1, RItem.one (fun c => c == '.'), RItem.atLeast wdDashC 1],
   "Bearer token"⟩,
  -- /\b(oauth[_-]?token|oauthtoken)\s*[:=]\s*["']?[\w-]{20,}/i
  ⟨[RItem.boundary] ++ litsCIOf "oauth" ++ [RItem.opt usDashC] ++ litsCIOf "token" ++ assignTail,
   "OAuth token"⟩,
  -- /mongodb(\+srv)?:\/\/[^:]+:[^@]+@/
  ⟨litsOf "mongodb" ++ [RItem.optStr ("+srv".toList)] ++ litsOf "://" ++ connTail,
   "database connection string"⟩,
  -- /postgres(ql)?:\/\/[^:]+:[^@]+@/
  ⟨litsOf "postgres" ++ [RItem.optStr ("ql".toList)] ++ litsOf "://" ++ connTail,
   "database connection string"⟩,
  -- /mysql:\/\/[^:]+:[^@]+@/
  ⟨litsOf "mysql://" ++ connTail, "database connection string"⟩,
  -- /\bAKIA[0-9A-Z]{16}\b/
  ⟨[RItem.boundary] ++ litsOf "AKIA" ++
     [RItem.exactly (fun c => c.isDigit || ('A' ≤ c && c ≤ 'Z')) 16, RItem.boundary],
   "AWS access key"⟩,
  -- /\b[0-9a-zA-Z/+=]{40}\b/
  ⟨[RItem.boundary,
    RItem.exactly (fun c => c.isAlphanum || c == '/' || c == '+' || c == '=') 40,
    RItem.boundary],
   "sensitive data pattern"⟩,
  -- /\bAIza[0-9A-Za-z-_]{35}\b/
  ⟨[RItem.boundary] ++ litsOf "AIza" ++
     [RItem.exactly (fun c => c.isAlphanum || c == '-' || c == '_') 35, RItem.boundary],
   "Google API key"⟩,
  -- /\b[0-9a-f]{8}-[0-9a-f]{4}-[0-9a-f]{4}-[0-9a-f]{4}-[0-9a-f]{12}\b/i
  ⟨[RItem.boundary, RItem.exactly hexCI 8, RItem.one (fun c => c == '-'),
    RItem.exactly hexCI 4, RItem.one (fun c => c == '-'),
    RItem.exactly hexCI 4, RItem.one (fun c => c == '-'),
    RItem.exactly hexCI 4, RItem.one (fun c => c == '-'),
    RItem.exactly hexCI 12, RItem.boundary],
   "UUID (potential secret)"⟩]

/-!
### The sensitive-data validator (`validateForSensitiveData`)
-/

/-- The `SENSITIVE_FIELD_NAMES` array of `validators.ts`. -/
def SENSITIVE_FIELD_NAMES : List String :=
  ["password", "passwd", "pwd",
   "secret", "api_key", "apikey", "api-key",
   "access_key", "accesskey", "access-key",
   "private_key", "privatekey", "private-key",
   "auth_token", "authtoken", "auth-token",
   "oauth_token", "oauthtoken", "oauth-token",
   "bearer_token", "bearertoken", "bearer-token",
   "client_secret", "clientsecret", "client-secret",
   "encryption_key", "encryptionkey", "encryption-key",
   "signing_key", "signingkey", "signing-key",
   "ssh_key", "sshkey", "ssh-key",
   "certificate", "cert",
   "credentials", "creds"]

/-- Is `needle` a contiguous sublist of `hay`? -/
def listInfixOf (needle : List Char) : List Char → Bool
  | [] => needle.isPrefixOf []
  | c :: cs => needle.isPrefixOf (c :: cs) || listInfixOf needle cs

/-- JS `s.includes(t)` — substring test. -/
def strIncludes (s t : String) : Bool := listInfixOf t.toList s.toList

/-- JS `s.toLowerCase()` (structurally recursive definition of ASCII
lowercasing, extensionally identical to `String.toLower`). -/
def jsToLower (s : String) : String := String.mk (s.toList.map Char.toLower)

/-- `match[0].substring(0, Math.min(20, length)) + (length > 20 ? '...' : '')`. -/
def truncMatch (m : String) : String :=
  String.mk (m.toList.take 20) ++ (if 20 < m.toList.length then "..." else "")

/-- The key-name errors pushed for a `key` argument (case-insensitive substring
test against every sensitive field-name fragment, one error per hit). -/
def keyNameErrors : Option String → List String
  | none => []
  | some key =>
    SENSITIVE_FIELD_NAMES.filterMap (fun f =>
      if strIncludes (jsToLower key) f then
        some ("Field name '" ++ key ++ "' suggests sensitive data (contains '" ++ f ++ "')")
      else none)

/-- The pattern errors pushed for a value string (one per matching pattern,
naming the pattern's description and the truncated matched text). -/
def patternErrors (valueStr : String) : List String :=
  SENSITIVE_PATTERNS.filterMap (fun p =>
    (regexFirstMatch p.items valueStr).map (fun m0 =>
      "Detected " ++ p.desc ++ " in value: \"" ++ truncMatch m0 ++ "\""))

/-- `/^[a-zA-Z0-9_-]+$/` whole-string test for the soft warning. -/
def isAlnumDashStr (s : String) : Bool :=
  !(s == "") && s.toList.all (fun c => c.isAlphanum || c == '_' || c == '-')

/-- Result record of `validateForSensitiveData`. -/
structure ValidationResult where
  isValid : Bool
  warnings : List String
  errors : List String

/-- Assemble the result from the key errors, pattern errors and the recursive
entry scan, in the code's accumulation order: key errors, then pattern errors,
then prefixed entry errors; entry warnings, then the soft warning (only when no
errors at all were recorded and the value string is a long plain token). -/
def vsdAssemble (key : Option String) (valueStr : String)
    (sub : List String × List String × Bool) : ValidationResult :=
  let keyErrs := keyNameErrors key
  let patErrs := patternErrors valueStr
  let errors := keyErrs ++ patErrs ++ sub.1
  let isValid := keyErrs.isEmpty && patErrs.isEmpty && sub.2.2
  let warnings := sub.2.1 ++
    (if 20 < valueStr.length && isAlnumDashStr valueStr && errors.isEmpty then
      ["Long alphanumeric string detected - ensure this is not a secret key"]
    else [])
  ⟨isValid, warnings, errors⟩

mutual

/-- `validateForSensitiveData(value, key?)` of `validators.ts`: key-name check,
pattern scan of the stringified value, and a recursive scan of `Object.entries`
(for arrays the entries are the elements keyed by their decimal index). -/
def validateForSensitiveData : JsonVal → Option String → ValidationResult
  | JsonVal.obj fields, key =>
      vsdAssemble key (jsValueString (JsonVal.obj fields)) (validateEntries fields)
  | JsonVal.arr elems, key =>
      vsdAssemble key (jsValueString (JsonVal.arr elems)) (validateArrEntries elems 0)
  | v, key => vsdAssemble key (jsValueString v) ([], [], true)

/-- Recursive scan of an object's entries: each entry is validated with its key;
an invalid entry's errors are appended with an `In field 'k':` prefix, and its
warnings are always appended with that prefix. -/
def validateEntries : List (String × JsonVal) → List String × List String × Bool
  | [] => ([], [], true)
  | (k, v) :: rest =>
    let sub := validateForSensitiveData v (some k)
    let r := validateEntries rest
    ((if sub.isValid then [] else sub.errors.map (fun e => "In field '" ++ k ++ "': " ++ e))
       ++ r.1,
     sub.warnings.map (fun w => "In field '" ++ k ++ "': " ++ w) ++ r.2.1,
     sub.isValid && r.2.2)

/-- Entry scan of an array (`Object.entries` keys arrays by decimal indices). -/
def validateArrEntries : List JsonVal → Nat → List String × List String × Bool
  | [], _ => ([], [], true)
  | v :: rest, i =>
    let sub := validateForSensitiveData v (some (toString i))
    let r := validateArrEntries rest (i + 1)
    ((if sub.isValid then []
      else sub.errors.map (fun e => "In field '" ++ toString i ++ "': " ++ e)) ++ r.1,
     sub.warnings.map (fun w => "In field '" ++ toString i ++ "': " ++ w) ++ r.2.1,
     sub.isValid && r.2.2)

end

/-!
### Data model of `BrainManagerV2` (brain-manager.ts)
-/

/-- Injective stand-in for `new Date(ms).toISOString()` (see the header note on
timestamps). -/
def isoStr (n : Nat) : String := toString n

/-- Association-list lookup, modelling `Map.get` / JS property access. -/
def alGet {α : Type} (m : List (String × α)) (k : String) : Option α :=
  (m.find? (fun e => e.1 == k)).map (fun e => e.2)

/-- `Map.set`: replace in place when the key is present, else append. -/
def alSet {α : Type} (m : List (String × α)) (k : String) (v : α) : List (String × α) :=
  match m with
  | [] => [(k, v)]
  | e :: rest => if e.1 == k then (k, v) :: rest else e :: alSet rest k v

/-- `Map.delete`. -/
def alDelete {α : Type} (m : List (String × α)) (k : String) : List (String × α) :=
  m.filter (fun e => !(e.1 == k))

/-- `l.slice(-n)` — the last `n` elements (all of them when fewer). -/
def listTakeRight {α : Type} (n : Nat) (l : List α) : List α := l.drop (l.length - n)

/-- A `Decision` record. -/
structure Decision where
  timestamp : Nat
  decision : String
  rationale : String
  impact : Option String

/-- A `Milestone` record (`artifacts` is optional in the interface; the
workflow always fills it). -/
structure Milestone where
  timestamp : Nat
  title : String
  description : String
  artifacts : Option (List String)

/-- A `ProjectContext` record. -/
structure ProjectContext where
  projectName : String
  status : String
  created : Nat
  lastModified : Nat
  summary : String
  currentFocus : String
  openTasks : List String
  completedTasks : List String
  keyDecisions : List Decision
  milestones : List Milestone
  keyFiles : List String
  dependencies : Option JsonVal
  metadata : Option (List (String × JsonVal))

/-- A `SessionContext` record. -/
structure SessionContext where
  timestamp : Nat
  lastProject : String
  lastActivity : String
  conversationMode : String
  openTasks : Option (List String)
  keyDecisions : Option (List String)

/-- An `UpdateProposal` record. -/
structure UpdateProposal where
  id : String
  type : String
  timestamp : Nat
  projectName : String
  changesSummary : String
  proposedContext : ProjectContext
  originalUpdates : JsonVal
  confirmationPrompt : String

/-- A frame of the project stack. -/
structure StackEntry where
  project : ProjectContext
  timestamp : Nat
  mode : String

/-- The mutable fields of the `BrainManagerV2` instance that the claims are
about (the project-creation/secure-config collaborators are out of scope). -/
structure ManagerState where
  currentProject : Option ProjectContext
  sessionContext : Option SessionContext
  projectStack : List StackEntry
  pendingUpdates : List (String × UpdateProposal)
  projectCache : List (String × ProjectContext)
  lastSessionCache : Option SessionContext

/-- A `BrainToolInstruction` record (brain-instructions.ts). -/
structure BrainToolInstruction where
  tool : String
  args : JsonVal
  description : String

/-- `BrainToolInstructions.stateSet`. -/
def stateSetInstr (category key : String) (value : JsonVal) : BrainToolInstruction :=
  ⟨"brain:state_set",
   JsonVal.obj [("category", JsonVal.str category), ("key", JsonVal.str key), ("value", value)],
   "Set " ++ category ++ "/" ++ key ++ " in state"⟩

/-- `BrainToolInstructions.stateGet`. -/
def stateGetInstr (category key : String) : BrainToolInstruction :=
  ⟨"brain:state_get",
   JsonVal.obj [("category", JsonVal.str category), ("key", JsonVal.str key)],
   "Get " ++ category ++ "/" ++ key ++ " from state"⟩

/-- JSON encoding of a `Decision` (for persistence instructions). -/
def decisionJson (d : Decision) : JsonVal :=
  JsonVal.obj ([("timestamp", JsonVal.str (isoStr d.timestamp)),
    ("decision", JsonVal.str d.decision),
    ("rationale", JsonVal.str d.rationale)] ++
    (match d.impact with
     | some i => [("impact", JsonVal.str i)]
     | none => []))

/-- JSON encoding of a `Milestone`. -/
def milestoneJson (m : Milestone) : JsonVal :=
  JsonVal.obj ([("timestamp", JsonVal.str (isoStr m.timestamp)),
    ("title", JsonVal.str m.title),
    ("description", JsonVal.str m.description)] ++
    (match m.artifacts with
     | some a => [("artifacts", JsonVal.arr (a.map JsonVal.str))]
     | none => []))

/-- JSON encoding of a `ProjectContext`. -/
def projectContextJson (p : ProjectContext) : JsonVal :=
  JsonVal.obj ([("projectName", JsonVal.str p.projectName),
    ("status", JsonVal.str p.status),
    ("created", JsonVal.str (isoStr p.created)),
    ("lastModified", JsonVal.str (isoStr p.lastModified)),
    ("summary", JsonVal.str p.summary),
    ("currentFocus", JsonVal.str p.currentFocus),
    ("openTasks", JsonVal.arr (p.openTasks.map JsonVal.str)),
    ("completedTasks", JsonVal.arr (p.completedTasks.map JsonVal.str)),
    ("keyDecisions", JsonVal.arr (p.keyDecisions.map decisionJson)),
    ("milestones", JsonVal.arr (p.milestones.map milestoneJson)),
    ("keyFiles", JsonVal.arr (p.keyFiles.map JsonVal.str))] ++
    (match p.dependencies with
     | some d => [("dependencies", d)]
     | none => []) ++
    (match p.metadata with
     | some m => [("metadata", JsonVal.obj m)]
     | none => []))

/-- JSON encoding of a `SessionContext`. -/
def sessionContextJson (s : SessionContext) : JsonVal :=
  JsonVal.obj ([("timestamp", JsonVal.str (isoStr s.timestamp)),
    ("lastProject", JsonVal.str s.lastProject),
    ("lastActivity", JsonVal.str s.lastActivity),
    ("conversationMode", JsonVal.str s.conversationMode)] ++
    (match s.openTasks with
     | some t => [("openTasks", JsonVal.arr (t.map JsonVal.str))]
     | none => []) ++
    (match s.keyDecisions with
     | some d => [("keyDecisions", JsonVal.arr (d.map JsonVal.str))]
     | none => []))

/-!
### The update workflow and context store operations

Payload modelling restriction: the `any`-typed update payloads are modelled by
`JsonVal`, and the fields the workflow reads (`completedTasks`, `newTasks`,
`artifacts` as string arrays, the text fields as strings) are extracted by the
helpers below; payloads whose fields are of other runtime types (on which the
JS code would duck-type or crash) are outside the model.
-/

/-- Extract a payload string array (elements that are strings). -/
def asStrList : Option JsonVal → List String
  | some (JsonVal.arr xs) =>
      xs.filterMap (fun x => match x with | JsonVal.str s => some s | _ => none)
  | _ => []

/-- JS `v || default` for a displayed string field (falsy values pick the
default). -/
def jsOrDisplay (v : Option JsonVal) (d : String) : String :=
  match v with
  | some x => if jsTruthyV x then jsDisplay x else d
  | none => d

/-- Display of a payload field (`${updates.f}`). -/
def fieldDisplay (u : JsonVal) (k : String) : String :=
  match getField u k with
  | some x => jsDisplay x
  | none => "undefined"

/-- The `progress` case of `proposeUpdate`'s switch. -/
def applyProgress (u : JsonVal) (ctx : ProjectContext) (now : Nat) :
    ProjectContext × List String :=
  let c0 := { ctx with lastModified := now }
  let step1 :=
    if jsTruthy (getField u "completedTasks") then
      let completed := asStrList (getField u "completedTasks")
      ({ c0 with
          openTasks := c0.openTasks.filter (fun task => !(completed.contains task)),
          completedTasks := c0.completedTasks ++ completed },
       ["Completed " ++ toString completed.length ++ " tasks"])
    else (c0, [])
  let step2 :=
    if jsTruthy (getField u "newTasks") then
      let newTasks := asStrList (getField u "newTasks")
      ({ step1.1 with openTasks := step1.1.openTasks ++ newTasks },
       step1.2 ++ ["Added " ++ toString newTasks.length ++ " new tasks"])
    else step1
  if jsTruthy (getField u "currentFocus") then
    let f := fieldDisplay u "currentFocus"
    ({ step2.1 with currentFocus := f }, step2.2 ++ ["Changed focus to: " ++ f])
  else step2

/-- The `decision` case. -/
def applyDecision (u : JsonVal) (ctx : ProjectContext) (now : Nat) :
    ProjectContext × List String :=
  let d : Decision :=
    { timestamp := now,
      decision := fieldDisplay u "decision",
      rationale := jsOrDisplay (getField u "rationale") "No rationale provided",
      impact := (getField u "impact").bind (fun x =>
        match x with | JsonVal.str s => some s | _ => none) }
  ({ ctx with keyDecisions := ctx.keyDecisions ++ [d] },
   ["Recorded decision: " ++ d.decision])

/-- The `milestone` case. -/
def applyMilestone (u : JsonVal) (ctx : ProjectContext) (now : Nat) :
    ProjectContext × List String :=
  let m : Milestone :=
    { timestamp := now,
      title := fieldDisplay u "title",
      description := jsOrDisplay (getField u "description") "",
      artifacts := some (if jsTruthy (getField u "artifacts") then
        asStrList (getField u "artifacts") else []) }
  ({ ctx with milestones := ctx.milestones ++ [m] },
   ["Added milestone: " ++ m.title])

/-- The `insight` case (creates `metadata.insights` when absent or falsy). -/
def applyInsight (u : JsonVal) (ctx : ProjectContext) (now : Nat) :
    ProjectContext × List String :=
  let md := match ctx.metadata with | some m => m | none => []
  let insights := match alGet md "insights" with
    | some (JsonVal.arr xs) => xs
    | _ => []
  let entry := JsonVal.obj
    [("timestamp", JsonVal.str (isoStr now)),
     ("insight", (getField u "insight").getD JsonVal.null),
     ("source", match getField u "source" with
       | some x => if jsTruthyV x then x else JsonVal.str "observation"
       | none => JsonVal.str "observation")]
  ({ ctx with metadata := some (alSet md "insights" (JsonVal.arr (insights ++ [entry]))) },
   ["Recorded insight: " ++ fieldDisplay u "insight"])

/-- `proposeUpdate`'s switch on the update type (an unknown type falls through
with no changes, but the proposal is still created). -/
def applyUpdateType (updateType : String) (u : JsonVal) (ctx : ProjectContext)
    (now : Nat) : ProjectContext × List String :=
  if updateType == "progress" then applyProgress u ctx now
  else if updateType == "decision" then applyDecision u ctx now
  else if updateType == "milestone" then applyMilestone u ctx now
  else if updateType == "insight" then applyInsight u ctx now
  else (ctx, [])

/-- `generateConfirmationPrompt`. -/
def generateConfirmationPrompt (updateType : String) (changes : List String)
    (context : ProjectContext) : String :=
  "📝 Proposed " ++ updateType ++ " update for '" ++ context.projectName ++ "':\n\n" ++
  String.join (changes.map (fun change => "  • " ++ change ++ "\n")) ++
  "\nConfirm these changes?"

/-- Target resolution of `proposeUpdate`: the named cached project, else the
current project. -/
def resolveTarget (s : ManagerState) (projectName : Option String) :
    Option ProjectContext :=
  match projectName with
  | some n =>
    match alGet s.projectCache n with
    | some p => some p
    | none => s.currentProject
  | none => s.currentProject

/-- The proposal built by `proposeUpdate` (`freshId` models `randomUUID()`). -/
def buildProposal (now : Nat) (freshId updateType : String) (updates : JsonVal)
    (project : ProjectContext) : UpdateProposal :=
  let applied := applyUpdateType updateType updates project now
  { id := freshId,
    type := updateType,
    timestamp := now,
    projectName := project.projectName,
    changesSummary := String.intercalate " | " applied.2,
    proposedContext := applied.1,
    originalUpdates := updates,
    confirmationPrompt := generateConfirmationPrompt updateType applied.2 applied.1 }

/-- The lazy TTL sweep run at the end of `proposeUpdate`: drop every pending
proposal strictly older than five minutes. -/
def sweep (now : Nat) (m : List (String × UpdateProposal)) :
    List (String × UpdateProposal) :=
  m.filter (fun e => !(decide (e.2.timestamp < now - 5 * 60 * 1000)))

/-- The exception message thrown on validation failure. -/
def securityErrorMessage (errors : List String) : String :=
  "Security validation failed: " ++ String.intercalate "; " errors ++
  ". Remove sensitive data like API keys, passwords, or tokens before storing."

/-- `proposeUpdate(updateType, updates, projectName?)`.  A thrown exception is
modelled as `Except.error`; the state component is returned alongside (it is
unchanged on every error path, since both throws precede any mutation). -/
def proposeUpdate (s : ManagerState) (now : Nat) (freshId : String)
    (updateType : String) (updates : JsonVal) (projectName : Option String) :
    Except String UpdateProposal × ManagerState :=
  let validation := validateForSensitiveData updates none
  if validation.isValid then
    match resolveTarget s projectName with
    | none =>
      (Except.error "No project specified or loaded. Load a project first with loadSessionData()", s)
    | some project =>
      let proposal := buildProposal now freshId updateType updates project
      (Except.ok proposal,
       { s with pendingUpdates := sweep now (alSet s.pendingUpdates freshId proposal) })
  else
    (Except.error (securityErrorMessage validation.errors), s)

/-- Shallow merge of a caller-supplied `modifications` object onto the proposed
context (`{...finalContext, ...modifications}`), restricted to well-typed
values of the known fields; the numeric timestamp fields and unknown keys are
outside the model. -/
def applyModField (ctx : ProjectContext) (e : String × JsonVal) : ProjectContext :=
  match e.1, e.2 with
  | "projectName", JsonVal.str v => { ctx with projectName := v }
  | "status", JsonVal.str v => { ctx with status := v }
  | "summary", JsonVal.str v => { ctx with summary := v }
  | "currentFocus", JsonVal.str v => { ctx with currentFocus := v }
  | "openTasks", JsonVal.arr xs => { ctx with openTasks := asStrList (some (JsonVal.arr xs)) }
  | "completedTasks", JsonVal.arr xs =>
      { ctx with completedTasks := asStrList (some (JsonVal.arr xs)) }
  | "keyFiles", JsonVal.arr xs => { ctx with keyFiles := asStrList (some (JsonVal.arr xs)) }
  | "metadata", JsonVal.obj fs => { ctx with metadata := some fs }
  | _, _ => ctx

/-- All modification fields, later keys winning (object spread semantics). -/
def applyMods (ctx : ProjectContext) (mods : List (String × JsonVal)) : ProjectContext :=
  mods.foldl applyModField ctx

/-- Result record of `confirmUpdate`. -/
structure ConfirmResult where
  success : Bool
  message : String
  instructions : List BrainToolInstruction

/-- The session context derived on every confirmation (top five open tasks,
last three decisions). -/
def confirmSessionUpdate (now : Nat) (proposal : UpdateProposal)
    (finalContext : ProjectContext) : SessionContext :=
  { timestamp := now,
    lastProject := proposal.projectName,
    lastActivity := proposal.changesSummary,
    conversationMode := "project_management",
    openTasks := some (finalContext.openTasks.take 5),
    keyDecisions := some ((listTakeRight 3 finalContext.keyDecisions).map (fun d => d.decision)) }

/-- The committed context: the proposal's context with any modifications
shallow-merged on top (`if (modifications)` — an object argument is truthy,
an omitted argument is not). -/
def confirmFinal (proposal : UpdateProposal)
    (modifications : Option (List (String × JsonVal))) : ProjectContext :=
  match modifications with
  | some mods => applyMods proposal.proposedContext mods
  | none => proposal.proposedContext

/-- `confirmUpdate(updateId, modifications?)`.  Note that no expiry check and
no sensitive-data validation happen here: an id present in the pending table is
committed unconditionally. -/
def confirmUpdate (s : ManagerState) (now : Nat) (updateId : String)
    (modifications : Option (List (String × JsonVal))) :
    ConfirmResult × ManagerState :=
  match alGet s.pendingUpdates updateId with
  | none =>
    (⟨false, "Update proposal not found or expired", []⟩, s)
  | some proposal =>
    let finalContext := confirmFinal proposal modifications
    let sessionUpdate := confirmSessionUpdate now proposal finalContext
    let instructions :=
      [stateSetInstr "project" proposal.projectName (projectContextJson finalContext),
       stateSetInstr "system" "last_session_context" (sessionContextJson sessionUpdate)]
    (⟨true,
      "Successfully applied " ++ proposal.type ++ " update to " ++ proposal.projectName,
      instructions⟩,
     { s with
        projectCache := alSet s.projectCache proposal.projectName finalContext,
        currentProject := some finalContext,
        sessionContext := some sessionUpdate,
        pendingUpdates := alDelete s.pendingUpdates updateId })

/-- `createProjectFromTemplate(projectName, template?)`: base record plus the
template-specific summary and metadata skeleton (no template seeds any tasks). -/
def createProjectFromTemplate (projectName : String) (template : Option String)
    (now : Nat) : ProjectContext :=
  let baseProject : ProjectContext :=
    { projectName := projectName,
      status := "active",
      created := now,
      lastModified := now,
      summary := "",
      currentFocus := "",
      openTasks := [],
      completedTasks := [],
      keyDecisions := [],
      milestones := [],
      keyFiles := [],
      dependencies := none,
      metadata := none }
  match template with
  | some "software" =>
    { baseProject with
       summary := "Software development project",
       metadata := some
         [("techStack", JsonVal.arr []),
          ("architecture", JsonVal.obj [("type", JsonVal.str ""), ("components", JsonVal.arr [])]),
          ("testingStrategy", JsonVal.str "")] }
  | some "research" =>
    { baseProject with
       summary := "Research project",
       metadata := some
         [("researchQuestions", JsonVal.arr []),
          ("hypotheses", JsonVal.arr []),
          ("methodology", JsonVal.str ""),
          ("dataSources", JsonVal.arr [])] }
  | some "ml" =>
    { baseProject with
       summary := "Machine learning project",
       metadata := some
         [("problemType", JsonVal.str ""),
          ("datasets", JsonVal.arr []),
          ("models", JsonVal.arr []),
          ("metrics", JsonVal.obj [])] }
  | some "writing" =>
    { baseProject with
       summary := "Writing project",
       metadata := some
         [("type", JsonVal.str ""),
          ("outline", JsonVal.arr []),
          ("wordCount", JsonVal.num 0),
          ("targetAudience", JsonVal.str "")] }
  | _ => baseProject

/-- Result record of `switchProject`. -/
structure SwitchResult where
  success : Bool
  project : Option ProjectContext
  message : String
  instructions : List BrainToolInstruction

/-- The stack push performed first by `switchProject` when a project is active
(the recorded mode is `sessionContext?.conversationMode || 'unknown'`). -/
def pushCurrent (s : ManagerState) (now : Nat) : ManagerState :=
  match s.currentProject with
  | some cur =>
    { s with projectStack :=
        { project := cur,
          timestamp := now,
          mode := match s.sessionContext with
            | some sc => if sc.conversationMode == "" then "unknown" else sc.conversationMode
            | none => "unknown" } :: s.projectStack }
  | none => s

/-- `switchProject(projectName, createIfNotExists, template?, existingProjectData?)`.
(The final `not found` return of the source is dead code: after the first
branch `project` is always set.) -/
def switchProject (s : ManagerState) (now : Nat) (projectName : String)
    (createIfNotExists : Bool) (template : Option String)
    (existingProjectData : Option ProjectContext) : SwitchResult × ManagerState :=
  let s1 := pushCurrent s now
  let found := match alGet s1.projectCache projectName with
    | some p => some p
    | none => existingProjectData
  match found with
  | some project =>
    (⟨true, some project, "Switched to project: " ++ projectName, []⟩,
     { s1 with
        currentProject := some project,
        projectCache := alSet s1.projectCache projectName project })
  | none =>
    if createIfNotExists then
      let project := createProjectFromTemplate projectName template now
      let s2 := { s1 with projectCache := alSet s1.projectCache projectName project }
      (⟨true, some project, "Switched to project: " ++ projectName,
        [stateSetInstr "project" projectName (projectContextJson project)]⟩,
       { s2 with
          currentProject := some project,
          projectCache := alSet s2.projectCache projectName project })
    else
      (⟨false, none,
        "Project '" ++ projectName ++ "' not in cache. Execute the instruction to load it.",
        [stateGetInstr "project" projectName]⟩,
       s1)

/-- Result record of `returnToPrevious`. -/
structure ReturnResult where
  success : Bool
  project : Option ProjectContext
  message : String

/-- `returnToPrevious()`. -/
def returnToPrevious (s : ManagerState) : ReturnResult × ManagerState :=
  match s.projectStack with
  | [] => (⟨false, none, "No previous project in stack"⟩, s)
  | previous :: rest =>
    (⟨true, some previous.project,
      "Returned to project: " ++ previous.project.projectName ++
      " (saved at " ++ isoStr previous.timestamp ++ ")"⟩,
     { s with
        currentProject := some previous.project,
        projectCache := alSet s.projectCache previous.project.projectName previous.project,
        projectStack := rest })

/-!
### Sequences of workflow operations (for the invariant and round-trip claims)
-/

/-- A propose or confirm call (the two operations of the update workflow). -/
inductive WOp where
  | propose (now : Nat) (freshId updateType : String) (updates : JsonVal)
      (projectName : Option String)
  | confirm (now : Nat) (id : String) (mods : Option (List (String × JsonVal)))

/-- The state after one workflow call (results are discarded; a thrown
`propose` leaves the state unchanged). -/
def applyWOp (s : ManagerState) : WOp → ManagerState
  | WOp.propose now freshId ty u pn => (proposeUpdate s now freshId ty u pn).2
  | WOp.confirm now id mods => (confirmUpdate s now id mods).2

/-- The state after a sequence of workflow calls. -/
def applyWOps (s : ManagerState) (ops : List WOp) : ManagerState :=
  ops.foldl applyWOp s

/-!
### The semantic router (semantic-router.ts)

The keyword scores are `k / Math.sqrt(wordCount)` for integer `k`, plus the
flat `0.1` baseline.  We model a score exactly as `base + root / sqrt w` with
rational `base`, `root` and the message's shared word count `w`, and decide all
comparisons exactly by squaring (the JS floats round these same real numbers;
no claim depends on sub-ulp behaviour near a threshold).
-/

/-- An exact score value `base + root / sqrt w` (`w` is passed to the
comparison separately, since all scores of one message share it). -/
structure ScoreVal where
  base : ℚ
  root : ℚ

/-- Exact comparison `x < y` of two score values over word count `w`:
`x < y  ↔  0 < (y.base - x.base) + (y.root - x.root)/sqrt w`, decided by sign
analysis and squaring. -/
def ltScore (w : Nat) (x y : ScoreVal) : Bool :=
  let d : ℚ := y.base - x.base
  let e : ℚ := y.root - x.root
  if 0 ≤ d then
    if 0 < e then true
    else if 0 < d then decide (e * e < d * d * (w : ℚ)) else false
  else
    if e ≤ 0 then false else decide (d * d * (w : ℚ) < e * e)

/-- Exact equality of two score values over word count `w` (JS `===` on the
corresponding numbers). -/
def eqScore (w : Nat) (x y : ScoreVal) : Bool :=
  !(ltScore w x y) && !(ltScore w y x)

/-- `x - y > c` for score values (used for the confidence margin). -/
def marginGT (w : Nat) (x y : ScoreVal) (c : ℚ) : Bool :=
  ltScore w ⟨y.base + c, y.root⟩ x

/-- `x / (y + 0.01) > c` for score values (used for the confidence ratio);
valid since every score here is nonnegative, making `y + 0.01` positive. -/
def relGT (w : Nat) (x y : ScoreVal) (c : ℚ) : Bool :=
  ltScore w ⟨(y.base + 1/100) * c, y.root * c⟩ x

/-- `Math.max` over a list of score values (`none` models the `-Infinity` of
`Math.max()` on an empty list). -/
def maxScore (w : Nat) (l : List ScoreVal) : Option ScoreVal :=
  l.foldl (fun acc v =>
    match acc with
    | none => some v
    | some m => if ltScore w m v then some v else some m) none

/- JS `message.split(/\s+/)`: split on maximal whitespace runs, keeping the
empty leading/trailing pieces produced by boundary separators. -/
mutual

def splitWsGo : List Char → List Char → List String
  | [], acc => [String.mk acc.reverse]
  | c :: cs, acc =>
    if spC c then String.mk acc.reverse :: splitWsSkip cs
    else splitWsGo cs (c :: acc)

def splitWsSkip : List Char → List String
  | [] => [""]
  | c :: cs => if spC c then splitWsSkip cs else splitWsGo cs [c]

end

/-- JS `message.split(/\s+/)`. -/
def jsSplitWs (s : String) : List String := splitWsGo s.toList []

/-- Replace the first occurrence of `pat` in the character list. -/
def replaceOnceAux (pat rep : List Char) : List Char → List Char
  | [] => []
  | c :: cs =>
    if pat.isPrefixOf (c :: cs) then rep ++ (c :: cs).drop pat.length
    else c :: replaceOnceAux pat rep cs

/-- JS `s.replace(pat, rep)` on string patterns: replace the first occurrence
only. -/
def jsReplaceOnce (s pat rep : String) : String :=
  String.mk (replaceOnceAux pat.toList rep.toList s.toList)

/-- The router's `modes` list, in source order. -/
def routerModes : List String :=
  ["project_continuation", "project_management", "research", "analysis",
   "help", "tarot", "general_assistant"]

/-- `ClassificationResult` (the `suggestedContext` field is never set by the
classification path). -/
structure ClassificationResult where
  mode : String
  confidence : ℚ
  reasoning : String

/-- `ConversationContext`. -/
structure ConversationContext where
  lastProject : Option String
  conversationHistory : Option (List (String × String))
  recentDecisions : Option (List String)

/-- `scoreKeywords(message, keywords)`: 2 points per matched multi-word phrase
(substring of the message), 1 point per keyword contained in some
whitespace-split word; the result is the raw integer score, to be divided by
`sqrt wordCount`. -/
def scoreKeywordsRaw (message : String) (keywords : List String) : Nat :=
  let words := jsSplitWs message
  keywords.foldl (fun score keyword =>
    if strIncludes keyword " " then
      if strIncludes message keyword then score + 2 else score
    else
      if words.any (fun word => strIncludes word keyword) then score + 1 else score) 0

def projectKeywords : List String :=
  ["project", "build", "create", "implement", "develop",
   "code", "fix", "debug", "feature", "bug", "deploy",
   "test", "refactor", "architecture", "design"]

def researchKeywords : List String :=
  ["research", "learn", "explore", "investigate", "study",
   "how does", "what is", "explain", "understand", "compare",
   "pros and cons", "best practices", "tutorial"]

def analysisKeywords : List String :=
  ["analyze", "analysis", "pattern", "insight", "trend",
   "connection", "relationship", "correlation", "statistics",
   "metrics", "performance", "optimize"]

def helpKeywords : List String :=
  ["help", "how do i", "how to", "guide", "documentation",
   "confused", "stuck", "problem", "issue", "error"]

def tarotKeywords : List String :=
  ["tarot", "reading", "spread", "cards", "divination",
   "fortune", "future", "guidance", "spiritual"]

/-- `calculateModeScores`, as `(mode, score)` pairs in insertion order;
`general_assistant` gets the flat `0.1` baseline. -/
def calculateModeScores (message : String) : List (String × ScoreVal) :=
  [("project_management", ⟨0, (scoreKeywordsRaw message projectKeywords : ℚ)⟩),
   ("research", ⟨0, (scoreKeywordsRaw message researchKeywords : ℚ)⟩),
   ("analysis", ⟨0, (scoreKeywordsRaw message analysisKeywords : ℚ)⟩),
   ("help", ⟨0, (scoreKeywordsRaw message helpKeywords : ℚ)⟩),
   ("tarot", ⟨0, (scoreKeywordsRaw message tarotKeywords : ℚ)⟩),
   ("general_assistant", ⟨1/10, 0⟩)]

/-- `calculateConfidence(scores, bestMode)`.  When every value ties with the
best, JS computes `Math.max()` = `-Infinity`, making the margin tests succeed
from the third threshold on and the ratio tests fail (`best / -Infinity` is
`-0`), hence `0.6` — the `none` branch. -/
def calculateConfidence (w : Nat) (scores : List (String × ScoreVal))
    (bestMode : String) : ℚ :=
  let values := scores.map (fun e => e.2)
  let bestScore := ((scores.find? (fun e => e.1 == bestMode)).map (fun e => e.2)).getD ⟨0, 0⟩
  if eqScore w bestScore ⟨0, 0⟩ then 3/10
  else
    match maxScore w (values.filter (fun v => !(eqScore w v bestScore))) with
    | none => 6/10
    | some secondBest =>
      if marginGT w bestScore secondBest 1 && relGT w bestScore secondBest 2 then 9/10
      else if marginGT w bestScore secondBest (1/2) && relGT w bestScore secondBest (3/2) then
        75/100
      else if marginGT w bestScore secondBest (1/4) then 6/10
      else 45/100

/-- The explicit `switch to <mode>` check (first mode whose name, with the
first underscore replaced by a space, occurs in the lowercased message). -/
def explicitSwitchMode (messageLower : String) : Option String :=
  if strIncludes messageLower "switch to" then
    routerModes.find? (fun mode => strIncludes messageLower (jsReplaceOnce mode "_" " "))
  else none

def continuationSignals : List String :=
  ["continue", "let's", "keep", "next", "now",
   "then", "also", "resume", "back to", "where were we"]

/-- `performClassification(messageLower, context?)`: explicit override first,
then the continuation heuristic, then keyword scoring with the argmax loop
(initial best `('general_assistant', 0)`, strict improvement). -/
def performClassification (messageLower : String)
    (context : Option ConversationContext) : ClassificationResult :=
  match explicitSwitchMode messageLower with
  | some mode => ⟨mode, 95/100, "Explicit mode switch requested"⟩
  | none =>
    let lastProject := match context with
      | some c => match c.lastProject with
        | some lp => if lp == "" then none else some lp
        | none => none
      | none => none
    if lastProject.isSome &&
        continuationSignals.any (fun signal => strIncludes messageLower signal) then
      ⟨"project_continuation", 85/100, "Continuation signal detected with active project"⟩
    else
      let modeScores := calculateModeScores messageLower
      let w := (jsSplitWs messageLower).length
      let best := modeScores.foldl
        (fun (acc : String × ScoreVal) e => if ltScore w acc.2 e.2 then e else acc)
        ("general_assistant", ⟨0, 0⟩)
      ⟨best.1, calculateConfidence w modeScores best.1, ""⟩

/-- `getDetectedKeywords(message, mode)` (top three). -/
def getDetectedKeywords (message mode : String) : List String :=
  let messageLower := jsToLower message
  let keywords : List String :=
    if mode == "project_management" then ["build", "create", "implement", "code", "fix"]
    else if mode == "research" then ["learn", "explore", "how does", "what is"]
    else if mode == "analysis" then ["analyze", "pattern", "insight", "trend"]
    else if mode == "help" then ["help", "how do i", "guide"]
    else if mode == "tarot" then ["tarot", "reading", "cards"]
    else []
  (keywords.filter (fun k => strIncludes messageLower k)).take 3

/-- `generateReasoning(message, mode, confidence, context?)`. -/
def generateReasoning (message mode : String) (confidence : ℚ)
    (context : Option ConversationContext) : String :=
  let lastProject := match context with
    | some c => c.lastProject
    | none => none
  let reasons :=
    (match lastProject with
     | some lp =>
       if mode == "project_continuation" && !(lp == "") then
         ["Detected continuation intent for project '" ++ lp ++ "'"]
       else []
     | none => []) ++
    (let kws := getDetectedKeywords message mode
     if kws.isEmpty then []
     else ["Found " ++ mode ++ " indicators: " ++ String.intercalate ", " kws]) ++
    (if 8/10 < confidence then ["High confidence based on clear intent signals"]
     else if confidence < 1/2 then ["Low confidence - consider clarifying intent"]
     else []) ++
    (match context with
     | some c => match c.conversationHistory with
       | some h => if h.length > 0 then ["Considered conversation history for context"] else []
       | none => []
     | none => [])
  String.intercalate ". " reasons

/-- `classify(message, context?)`: lowercase, classify, then overwrite the
reasoning with `generateReasoning`. -/
def classify (message : String) (context : Option ConversationContext) :
    ClassificationResult :=
  let messageLower := jsToLower message
  let c := performClassification messageLower context
  { c with reasoning := generateReasoning message c.mode c.confidence context }

/-!
### Invariant predicates and concrete fixtures
-/

/-- Are a record's `openTasks` and `completedTasks` disjoint? -/
def tasksDisjointB (p : ProjectContext) : Bool :=
  p.openTasks.all (fun t => !(p.completedTasks.contains t))

/-- Disjointness of every project record reachable by the workflow: the
current project, every cached record, and every pending proposal's proposed
context. -/
def stateDisjointB (s : ManagerState) : Bool :=
  (match s.currentProject with
   | some p => tasksDisjointB p
   | none => true) &&
  s.projectCache.all (fun e => tasksDisjointB e.2) &&
  s.pendingUpdates.all (fun e => tasksDisjointB e.2.proposedContext)

/-- The completed-task list a `progress` payload contributes. -/
def progressCompletedTasks (u : JsonVal) : List String :=
  if jsTruthy (getField u "completedTasks") then asStrList (getField u "completedTasks")
  else []

/-- The new-task list a `progress` payload contributes. -/
def progressNewTasks (u : JsonVal) : List String :=
  if jsTruthy (getField u "newTasks") then asStrList (getField u "newTasks") else []

/-- The proviso of the amended claim C3: a `progress` proposal must not add
new tasks that are already completed (in the target record or in the same
update), and a confirm must pass no modifications. -/
def goodWOpB (s : ManagerState) : WOp → Bool
  | WOp.propose _ _ ty u pn =>
    if ty == "progress" then
      match resolveTarget s pn with
      | some p => (progressNewTasks u).all (fun t =>
          !(p.completedTasks.contains t) && !((progressCompletedTasks u).contains t))
      | none => true
    else true
  | WOp.confirm _ _ mods => mods.isNone

/-- The proviso holds at every step of a run. -/
def goodRunB (s : ManagerState) : List WOp → Bool
  | [] => true
  | op :: ops => goodWOpB s op && goodRunB (applyWOp s op) ops

/-- Propositional form of `tasksDisjointB`. -/
def TasksDisjoint (p : ProjectContext) : Prop :=
  ∀ t ∈ p.openTasks, t ∉ p.completedTasks

/-- Propositional form of `stateDisjointB`. -/
def StateDisjoint (s : ManagerState) : Prop :=
  (∀ p, s.currentProject = some p → TasksDisjoint p) ∧
  (∀ e ∈ s.projectCache, TasksDisjoint e.2) ∧
  (∀ e ∈ s.pendingUpdates, TasksDisjoint e.2.proposedContext)

/-- A small concrete project record. -/
def wProject : ProjectContext :=
  { projectName := "alpha", status := "active", created := 0, lastModified := 0,
    summary := "", currentFocus := "", openTasks := ["a", "b"], completedTasks := ["z"],
    keyDecisions := [], milestones := [], keyFiles := [], dependencies := none,
    metadata := none }

/-- A manager state with `wProject` current and cached. -/
def wState : ManagerState :=
  { currentProject := some wProject, sessionContext := none, projectStack := [],
    pendingUpdates := [], projectCache := [("alpha", wProject)], lastSessionCache := none }

/-- The state after proposing an empty progress update on `wState`. -/
def wS1 : ManagerState :=
  (proposeUpdate wState 0 "u1" "progress" (JsonVal.obj []) none).2

/-- The proposal created by that propose call. -/
def wProp : UpdateProposal := buildProposal 0 "u1" "progress" (JsonVal.obj []) wProject

/-- The example payload of the claim: a Stripe-like secret key inside
`newTasks`. -/
def c1Payload : JsonVal :=
  JsonVal.obj [("newTasks", JsonVal.arr [JsonVal.str "sk-ABCDEFGHIJKLMNOPQRST"])]

/-- An empty manager state. -/
def emptyState : ManagerState :=
  { currentProject := none, sessionContext := none, projectStack := [],
    pendingUpdates := [], projectCache := [], lastSessionCache := none }

/-- A modifications object the validator would reject (a Stripe-like key). -/
def c9Mods : List (String × JsonVal) :=
  [("currentFocus", JsonVal.str "sk-ABCDEFGHIJKLMNOPQRST")]

/-- The payload `{completedTasks: [t]}`. -/
def singleCompletedPayload (t : String) : JsonVal :=
  JsonVal.obj [("completedTasks", JsonVal.arr [JsonVal.str t])]

/-- A project whose task lists are disjoint but where a completed task exists. -/
def c3Project : ProjectContext :=
  { wProject with openTasks := [], completedTasks := ["a"] }

/-- A state holding `c3Project`. -/
def c3State : ManagerState :=
  { wState with currentProject := some c3Project, projectCache := [("alpha", c3Project)] }

/-- A propose/confirm run whose progress update re-adds the completed task. -/
def c3Ops : List WOp :=
  [WOp.propose 0 "u1" "progress"
    (JsonVal.obj [("newTasks", JsonVal.arr [JsonVal.str "a"])]) none,
   WOp.confirm 1 "u1" none]

/-!
### Supporting lemmas
-/

theorem find?_alSet_self {α : Type} (m : List (String × α)) (k : String) (v : α) :
    (alSet m k v).find? (fun e => e.1 == k) = some (k, v) := by
  induction m with
  | nil => simp [alSet, List.find?]
  | cons e rest ih =>
    by_cases he : e.1 == k
    · simp [alSet, he, List.find?]
    · simp only [alSet, if_neg he]
      rw [List.find?_cons_of_neg _ (by simpa using he)]
      exact ih

theorem alGet_alSet_self {α : Type} (m : List (String × α)) (k : String) (v : α) :
    alGet (alSet m k v) k = some v := by
  unfold alGet
  rw [find?_alSet_self]
  rfl

theorem mem_alSet {α : Type} {m : List (String × α)} {k : String} {v : α}
    {x : String × α} (hx : x ∈ alSet m k v) : x = (k, v) ∨ x ∈ m := by
  induction m with
  | nil => simpa [alSet] using hx
  | cons e rest ih =>
    by_cases he : e.1 == k
    · simp only [alSet, if_pos he, List.mem_cons] at hx
      rcases hx with h | h
      · exact Or.inl h
      · exact Or.inr (List.mem_cons_of_mem _ h)
    · simp only [alSet, if_neg he, List.mem_cons] at hx
      rcases hx with h | h
      · exact Or.inr (by simp [h])
      · rcases ih h with h' | h'
        · exact Or.inl h'
        · exact Or.inr (List.mem_cons_of_mem _ h')

theorem alGet_alDelete_self {α : Type} (m : List (String × α)) (k : String) :
    alGet (alDelete m k) k = none := by
  unfold alGet alDelete
  rw [List.find?_eq_none.mpr]
  · rfl
  · intro x hx
    rw [List.mem_filter] at hx
    simpa using hx.2

theorem find?_filter_of_found {α : Type} (p q : α → Bool) (l : List α) (x : α)
    (hf : l.find? p = some x) (hq : q x = true) :
    (l.filter q).find? p = some x := by
  induction l with
  | nil => simp at hf
  | cons a as ih =>
    by_cases hp : p a
    · rw [List.find?_cons_of_pos _ hp] at hf
      cases hf
      rw [List.filter_cons_of_pos hq, List.find?_cons_of_pos _ hp]
    · rw [List.find?_cons_of_neg _ hp] at hf
      by_cases hqa : q a
      · rw [List.filter_cons_of_pos hqa, List.find?_cons_of_neg _ hp]
        exact ih hf
      · rw [List.filter_cons_of_neg (by simpa using hqa)]
        exact ih hf

theorem find?_filter_eq_none {α : Type} (p q : α → Bool) (l : List α)
    (h : ∀ x ∈ l, p x = true → q x = false) :
    (l.filter q).find? p = none := by
  rw [List.find?_eq_none]
  intro x hx
  rw [List.mem_filter] at hx
  intro hp
  rw [h x hx.1 hp] at hx
  exact absurd hx.2 (by simp)

theorem found_key_unique {α : Type} {m : List (String × α)} {k : String}
    {y : String × α} (hn : (m.map Prod.fst).Nodup)
    (hf : m.find? (fun e => e.1 == k) = some y) :
    ∀ x ∈ m, x.1 = k → x = y := by
  induction m with
  | nil => simp at hf
  | cons e rest ih =>
    rw [List.map_cons, List.nodup_cons] at hn
    intro x hx hxk
    by_cases he : (e.1 == k) = true
    · have hek : e.1 = k := beq_iff_eq.mp he
      have hy : e = y := by simpa [List.find?, he] using hf
      rcases List.mem_cons.mp hx with h | h
      · rw [h, hy]
      · exact absurd (by rw [hek, ← hxk]; exact List.mem_map_of_mem Prod.fst h) hn.1
    · have hf' : rest.find? (fun e => e.1 == k) = some y := by
        simpa [List.find?, he] using hf
      rcases List.mem_cons.mp hx with h | h
      · exact absurd (beq_iff_eq.mpr (by rw [← hxk, h])) he
      · exact ih hn.2 hf' x h hxk

theorem pushCurrent_cache (s : ManagerState) (now : Nat) :
    (pushCurrent s now).projectCache = s.projectCache := by
  unfold pushCurrent
  cases h : s.currentProject <;> rfl

theorem pushCurrent_current (s : ManagerState) (now : Nat) :
    (pushCurrent s now).currentProject = s.currentProject := by
  unfold pushCurrent
  cases h : s.currentProject
  · exact h
  · rfl

theorem pushCurrent_pending (s : ManagerState) (now : Nat) :
    (pushCurrent s now).pendingUpdates = s.pendingUpdates := by
  unfold pushCurrent
  cases h : s.currentProject <;> rfl

theorem pushCurrent_stack_of_some {s : ManagerState} {A : ProjectContext}
    (now : Nat) (hA : s.currentProject = some A) :
    ∃ fr : StackEntry, fr.project = A ∧
      (pushCurrent s now).projectStack = fr :: s.projectStack := by
  unfold pushCurrent
  rw [hA]
  exact ⟨_, rfl, rfl⟩

theorem switchProject_stack (s : ManagerState) (now : Nat) (n : String)
    (c : Bool) (t : Option String) (e : Option ProjectContext) :
    (switchProject s now n c t e).2.projectStack = (pushCurrent s now).projectStack := by
  unfold switchProject
  dsimp only
  split
  · rfl
  · split <;> rfl

theorem switchProject_miss (s : ManagerState) (now : Nat) (name : String)
    (template : Option String) (hmiss : alGet s.projectCache name = none) :
    switchProject s now name false template none =
      (⟨false, none,
        "Project '" ++ name ++ "' not in cache. Execute the instruction to load it.",
        [stateGetInstr "project" name]⟩, pushCurrent s now) := by
  unfold switchProject
  dsimp only
  rw [pushCurrent_cache, hmiss]
  rfl

theorem proposeUpdate_stack (s : ManagerState) (now : Nat) (id ty : String)
    (u : JsonVal) (pn : Option String) :
    (proposeUpdate s now id ty u pn).2.projectStack = s.projectStack := by
  unfold proposeUpdate
  dsimp only
  split
  · split <;> rfl
  · rfl

theorem confirmUpdate_found (s : ManagerState) (now : Nat) (id : String)
    (mods : Option (List (String × JsonVal))) (prop : UpdateProposal)
    (h : alGet s.pendingUpdates id = some prop) :
    confirmUpdate s now id mods =
      (⟨true,
        "Successfully applied " ++ prop.type ++ " update to " ++ prop.projectName,
        [stateSetInstr "project" prop.projectName (projectContextJson (confirmFinal prop mods)),
         stateSetInstr "system" "last_session_context"
           (sessionContextJson (confirmSessionUpdate now prop (confirmFinal prop mods)))]⟩,
       { s with
          projectCache := alSet s.projectCache prop.projectName (confirmFinal prop mods),
          currentProject := some (confirmFinal prop mods),
          sessionContext := some (confirmSessionUpdate now prop (confirmFinal prop mods)),
          pendingUpdates := alDelete s.pendingUpdates id }) := by
  unfold confirmUpdate
  rw [h]

theorem confirmUpdate_notFound (s : ManagerState) (now : Nat) (id : String)
    (mods : Option (List (String × JsonVal)))
    (h : alGet s.pendingUpdates id = none) :
    confirmUpdate s now id mods = (⟨false, "Update proposal not found or expired", []⟩, s) := by
  unfold confirmUpdate
  rw [h]

theorem confirmUpdate_stack (s : ManagerState) (now : Nat) (id : String)
    (mods : Option (List (String × JsonVal))) :
    (confirmUpdate s now id mods).2.projectStack = s.projectStack := by
  unfold confirmUpdate
  split <;> rfl

theorem applyWOp_stack (s : ManagerState) (op : WOp) :
    (applyWOp s op).projectStack = s.projectStack := by
  cases op with
  | propose now id ty u pn => exact proposeUpdate_stack s now id ty u pn
  | confirm now id mods => exact confirmUpdate_stack s now id mods

theorem applyWOps_stack (ops : List WOp) :
    ∀ s : ManagerState, (applyWOps s ops).projectStack = s.projectStack := by
  induction ops with
  | nil => intro s; rfl
  | cons op ops ih =>
    intro s
    show (applyWOps (applyWOp s op) ops).projectStack = s.projectStack
    rw [ih, applyWOp_stack]

theorem returnToPrevious_cons {s : ManagerState} {fr : StackEntry}
    {rest : List StackEntry} (h : s.projectStack = fr :: rest) :
    (returnToPrevious s).1.success = true ∧
    (returnToPrevious s).1.project = some fr.project ∧
    (returnToPrevious s).2.currentProject = some fr.project ∧
    (returnToPrevious s).2.projectStack = rest := by
  unfold returnToPrevious
  rw [h]
  exact ⟨rfl, rfl, rfl, rfl⟩

theorem validateEntries_valid_errors :
    ∀ fs : List (String × JsonVal),
      (validateEntries fs).2.2 = true → (validateEntries fs).1 = []
  | [], _ => rfl
  | (k, v) :: rest, h => by
    unfold validateEntries at h ⊢
    dsimp only at h ⊢
    rw [Bool.and_eq_true] at h
    rw [if_pos h.1, validateEntries_valid_errors rest h.2]
    rfl

theorem validateArrEntries_valid_errors :
    ∀ (xs : List JsonVal) (i : Nat),
      (validateArrEntries xs i).2.2 = true → (validateArrEntries xs i).1 = []
  | [], _, _ => rfl
  | v :: rest, i, h => by
    unfold validateArrEntries at h ⊢
    dsimp only at h ⊢
    rw [Bool.and_eq_true] at h
    rw [if_pos h.1, validateArrEntries_valid_errors rest (i + 1) h.2]
    rfl

theorem vsdAssemble_valid_errors (key : Option String) (valueStr : String)
    (sub : List String × List String × Bool)
    (hsub : sub.2.2 = true → sub.1 = [])
    (h : (vsdAssemble key valueStr sub).isValid = true) :
    (vsdAssemble key valueStr sub).errors = [] := by
  unfold vsdAssemble at h ⊢
  rw [Bool.and_eq_true, Bool.and_eq_true] at h
  rw [List.isEmpty_iff.mp h.1.1, List.isEmpty_iff.mp h.1.2, hsub h.2]
  rfl

/-- A valid result carries no errors (the code's running `isValid` flag is
false exactly when some error was pushed). -/
theorem vsd_isValid_true_errors (v : JsonVal) (k : Option String)
    (h : (validateForSensitiveData v k).isValid = true) :
    (validateForSensitiveData v k).errors = [] := by
  cases v with
  | obj fields =>
    exact vsdAssemble_valid_errors _ _ _ (validateEntries_valid_errors fields)
      (by unfold validateForSensitiveData at h; exact h)
  | arr elems =>
    exact vsdAssemble_valid_errors _ _ _ (validateArrEntries_valid_errors elems 0)
      (by unfold validateForSensitiveData at h; exact h)
  | str s => exact vsdAssemble_valid_errors _ _ _ (fun _ => rfl) h
  | num n => exact vsdAssemble_valid_errors _ _ _ (fun _ => rfl) h
  | bool b => exact vsdAssemble_valid_errors _ _ _ (fun _ => rfl) h
  | null => exact vsdAssemble_valid_errors _ _ _ (fun _ => rfl) h

theorem proposeUpdate_invalid (s : ManagerState) (now : Nat) (freshId ty : String)
    (u : JsonVal) (pn : Option String)
    (h : (validateForSensitiveData u none).isValid = false) :
    proposeUpdate s now freshId ty u pn =
      (Except.error (securityErrorMessage (validateForSensitiveData u none).errors), s) := by
  unfold proposeUpdate
  dsimp only
  rw [h]
  rfl

theorem proposeUpdate_ok (s : ManagerState) (now : Nat) (freshId ty : String)
    (u : JsonVal) (pn : Option String) (p : ProjectContext)
    (hv : (validateForSensitiveData u none).isValid = true)
    (hp : resolveTarget s pn = some p) :
    proposeUpdate s now freshId ty u pn =
      (Except.ok (buildProposal now freshId ty u p),
       { s with
          pendingUpdates :=
            sweep now (alSet s.pendingUpdates freshId (buildProposal now freshId ty u p)) }) := by
  unfold proposeUpdate
  dsimp only
  rw [hv, hp]
  rfl

theorem alGet_sweep_alSet_self (m : List (String × UpdateProposal)) (now : Nat)
    (k : String) (v : UpdateProposal) (hts : ¬(v.timestamp < now - 5 * 60 * 1000)) :
    alGet (sweep now (alSet m k v)) k = some v := by
  unfold alGet sweep
  rw [find?_filter_of_found _ _ _ _ (find?_alSet_self m k v) (by simpa using hts)]
  rfl

theorem contains_eq_true_iff {a : String} {l : List String} :
    l.contains a = true ↔ a ∈ l := by
  simp [List.contains, List.elem_iff]

theorem tasksDisjointB_iff (p : ProjectContext) :
    tasksDisjointB p = true ↔ TasksDisjoint p := by
  unfold tasksDisjointB TasksDisjoint
  rw [List.all_eq_true]
  constructor
  · intro h t ht hmem
    have := h t ht
    rw [Bool.not_eq_true', ← Bool.not_eq_true] at this
    exact this (contains_eq_true_iff.mpr hmem)
  · intro h t ht
    rw [Bool.not_eq_true', ← Bool.not_eq_true]
    intro hc
    exact h t ht (contains_eq_true_iff.mp hc)

theorem stateDisjointB_iff (s : ManagerState) :
    stateDisjointB s = true ↔ StateDisjoint s := by
  unfold stateDisjointB StateDisjoint
  rw [Bool.and_eq_true, Bool.and_eq_true, List.all_eq_true, List.all_eq_true]
  cases h : s.currentProject <;>
    simp [h, tasksDisjointB_iff, and_assoc]

theorem resolveTarget_disjoint {s : ManagerState} {pn : Option String}
    {p : ProjectContext} (hs : StateDisjoint s) (h : resolveTarget s pn = some p) :
    TasksDisjoint p := by
  cases pn with
  | none =>
    simp only [resolveTarget] at h
    exact hs.1 p h
  | some n =>
    simp only [resolveTarget] at h
    cases hc : alGet s.projectCache n with
    | none => rw [hc] at h; exact hs.1 p h
    | some q =>
      rw [hc] at h
      have hqp : q = p := Option.some.inj h
      unfold alGet at hc
      cases hf : s.projectCache.find? (fun e => e.1 == n) with
      | none => rw [hf] at hc; exact absurd hc (by simp)
      | some y =>
        rw [hf] at hc
        have hy : y ∈ s.projectCache := List.mem_of_find?_eq_some hf
        have hyq : y.2 = q := by simpa using hc
        rw [← hqp, ← hyq]
        exact hs.2.1 y hy

theorem TasksDisjoint_of_fields {q p : ProjectContext}
    (h1 : q.openTasks = p.openTasks) (h2 : q.completedTasks = p.completedTasks)
    (hd : TasksDisjoint p) : TasksDisjoint q := by
  intro t ht
  rw [h1] at ht
  rw [h2]
  exact hd t ht

theorem applyProgress_tasks (u : JsonVal) (p : ProjectContext) (now : Nat) :
    (applyProgress u p now).1.openTasks =
      (p.openTasks.filter (fun task => !((progressCompletedTasks u).contains task)))
        ++ progressNewTasks u ∧
    (applyProgress u p now).1.completedTasks =
      p.completedTasks ++ progressCompletedTasks u := by
  unfold applyProgress progressNewTasks progressCompletedTasks
  dsimp only
  by_cases hc : jsTruthy (getField u "completedTasks") <;>
    by_cases hn : jsTruthy (getField u "newTasks") <;>
      by_cases hf : jsTruthy (getField u "currentFocus") <;>
        simp [hc, hn, hf, List.contains]

theorem applyProgress_disjoint {u : JsonVal} {p : ProjectContext} (now : Nat)
    (hd : TasksDisjoint p)
    (hguard : ∀ t ∈ progressNewTasks u,
      t ∉ p.completedTasks ∧ t ∉ progressCompletedTasks u) :
    TasksDisjoint (applyProgress u p now).1 := by
  obtain ⟨ho, hcp⟩ := applyProgress_tasks u p now
  intro t ht hmem
  rw [ho] at ht
  rw [hcp] at hmem
  rcases List.mem_append.mp ht with hfil | hnew
  · rw [List.mem_filter] at hfil
    rcases List.mem_append.mp hmem with h | h
    · exact hd t hfil.1 h
    · have := hfil.2
      rw [Bool.not_eq_true', ← Bool.not_eq_true] at this
      exact this (contains_eq_true_iff.mpr h)
  · rcases List.mem_append.mp hmem with h | h
    · exact (hguard t hnew).1 h
    · exact (hguard t hnew).2 h

theorem applyUpdateType_disjoint (ty : String) (u : JsonVal) (p : ProjectContext)
    (now : Nat) (hd : TasksDisjoint p)
    (hguard : ty = "progress" → ∀ t ∈ progressNewTasks u,
      t ∉ p.completedTasks ∧ t ∉ progressCompletedTasks u) :
    TasksDisjoint (applyUpdateType ty u p now).1 := by
  unfold applyUpdateType
  by_cases h1 : (ty == "progress") = true
  · rw [if_pos h1]
    exact applyProgress_disjoint now hd (hguard (beq_iff_eq.mp h1))
  · rw [if_neg h1]
    by_cases h2 : (ty == "decision") = true
    · rw [if_pos h2]
      exact TasksDisjoint_of_fields rfl rfl hd
    · rw [if_neg h2]
      by_cases h3 : (ty == "milestone") = true
      · rw [if_pos h3]
        exact TasksDisjoint_of_fields rfl rfl hd
      · rw [if_neg h3]
        by_cases h4 : (ty == "insight") = true
        · rw [if_pos h4]
          exact TasksDisjoint_of_fields rfl rfl hd
        · rw [if_neg h4]
          exact hd

theorem proposeUpdate_preserves_disjoint (s : ManagerState) (now : Nat)
    (freshId ty : String) (u : JsonVal) (pn : Option String)
    (hs : StateDisjoint s)
    (hg : goodWOpB s (WOp.propose now freshId ty u pn) = true) :
    StateDisjoint (proposeUpdate s now freshId ty u pn).2 := by
  by_cases hv : (validateForSensitiveData u none).isValid = true
  · cases hres : resolveTarget s pn with
    | none =>
      have : proposeUpdate s now freshId ty u pn =
          (Except.error
            "No project specified or loaded. Load a project first with loadSessionData()",
           s) := by
        unfold proposeUpdate
        dsimp only
        rw [hv, hres]
        rfl
      rw [this]
      exact hs
    | some p =>
      rw [proposeUpdate_ok s now freshId ty u pn p hv hres]
      refine ⟨hs.1, hs.2.1, ?_⟩
      intro e he
      have he' : e ∈ alSet s.pendingUpdates freshId (buildProposal now freshId ty u p) :=
        (List.mem_filter.mp he).1
      rcases mem_alSet he' with h | h
      · rw [h]
        apply applyUpdateType_disjoint ty u p now (resolveTarget_disjoint hs hres)
        intro hty
        subst hty
        simp only [goodWOpB] at hg
        rw [hres] at hg
        simp only [beq_self_eq_true, if_true] at hg
        rw [List.all_eq_true] at hg
        intro t htn
        have := hg t htn
        rw [Bool.and_eq_true, Bool.not_eq_true', Bool.not_eq_true'] at this
        constructor
        · intro hmem
          rw [contains_eq_true_iff.mpr hmem] at this
          exact absurd this.1 (by simp)
        · intro hmem
          rw [contains_eq_true_iff.mpr hmem] at this
          exact absurd this.2 (by simp)
      · exact hs.2.2 e h
  · rw [proposeUpdate_invalid s now freshId ty u pn (by
      cases hb : (validateForSensitiveData u none).isValid
      · rfl
      · exact absurd hb hv)]
    exact hs

theorem confirmUpdate_preserves_disjoint (s : ManagerState) (now : Nat)
    (id : String) (hs : StateDisjoint s) :
    StateDisjoint (confirmUpdate s now id none).2 := by
  cases hf : alGet s.pendingUpdates id with
  | none =>
    rw [confirmUpdate_notFound s now id none hf]
    exact hs
  | some prop =>
    rw [confirmUpdate_found s now id none prop hf]
    have hdp : TasksDisjoint prop.proposedContext := by
      unfold alGet at hf
      cases hff : s.pendingUpdates.find? (fun e => e.1 == id) with
      | none => rw [hff] at hf; exact absurd hf (by simp)
      | some y =>
        rw [hff] at hf
        have hy : y ∈ s.pendingUpdates := List.mem_of_find?_eq_some hff
        have : y.2 = prop := by simpa using hf
        rw [← this]
        exact hs.2.2 y hy
    have hfinal : TasksDisjoint (confirmFinal prop none) := hdp
    refine ⟨?_, ?_, ?_⟩
    · intro p hp
      cases hp
      exact hfinal
    · intro e he
      rcases mem_alSet he with h | h
      · rw [h]
        exact hfinal
      · exact hs.2.1 e h
    · intro e he
      exact hs.2.2 e (List.mem_filter.mp he).1

theorem applyWOp_preserves_disjoint (s : ManagerState) (op : WOp)
    (hs : StateDisjoint s) (hg : goodWOpB s op = true) :
    StateDisjoint (applyWOp s op) := by
  cases op with
  | propose now freshId ty u pn =>
    exact proposeUpdate_preserves_disjoint s now freshId ty u pn hs hg
  | confirm now id mods =>
    have : mods = none := by
      unfold goodWOpB at hg
      exact Option.isNone_iff_eq_none.mp hg
    subst this
    exact confirmUpdate_preserves_disjoint s now id hs

theorem goodRun_preserves_disjoint (ops : List WOp) :
    ∀ s : ManagerState, StateDisjoint s → goodRunB s ops = true →
      StateDisjoint (applyWOps s ops) := by
  induction ops with
  | nil => intro s hs _; exact hs
  | cons op ops ih =>
    intro s hs hrun
    unfold goodRunB at hrun
    rw [Bool.and_eq_true] at hrun
    exact ih (applyWOp s op) (applyWOp_preserves_disjoint s op hs hrun.1) hrun.2

/-- C6: with project A current, after a successful `switchProject(B, ...)`
followed by any sequence of propose/confirm operations mutating B's record,
`returnToPrevious()` succeeds and restores A exactly as it was at the moment
of the switch — the stacked snapshot is untouched by later mutations. -/
theorem C6_switch_return_round_trip
    (s : ManagerState) (now : Nat) (A : ProjectContext) (B : String)
    (createIfNotExists : Bool) (template : Option String)
    (existingProjectData : Option ProjectContext) (ops : List WOp)
    (hA : s.currentProject = some A)
    (hsw : (switchProject s now B createIfNotExists template existingProjectData).1.success
      = true) :
    (returnToPrevious (applyWOps
        (switchProject s now B createIfNotExists template existingProjectData).2 ops)).1.success
      = true ∧
    (returnToPrevious (applyWOps
        (switchProject s now B createIfNotExists template existingProjectData).2 ops)).1.project
      = some A ∧
    (returnToPrevious (applyWOps
        (switchProject s now B createIfNotExists template existingProjectData).2
        ops)).2.currentProject = some A := by
  obtain ⟨fr, hfr, hps⟩ := pushCurrent_stack_of_some now hA
  have h2 : (applyWOps
      (switchProject s now B createIfNotExists template existingProjectData).2 ops).projectStack
      = fr :: s.projectStack := by
    rw [applyWOps_stack, switchProject_stack, hps]
  obtain ⟨hsucc, hproj, hcur, _⟩ := returnToPrevious_cons h2
  rw [hfr] at hproj hcur
  exact ⟨hsucc, hproj, hcur⟩

/-- C10 (implicit): `switchProject(name, createIfNotExists = false)` on a
cache miss has already pushed a deep copy of the current project before
failing: the failed call leaves `currentProject` and the cache unchanged but
grows the stack by one frame, which a subsequent `returnToPrevious` pops. -/
theorem C10_failed_switch_pushes_stack
    (s : ManagerState) (now : Nat) (A : ProjectContext) (name : String)
    (template : Option String)
    (hA : s.currentProject = some A)
    (hmiss : alGet s.projectCache name = none) :
    (switchProject s now name false template none).1.success = false ∧
    (switchProject s now name false template none).2.currentProject = s.currentProject ∧
    (switchProject s now name false template none).2.projectCache = s.projectCache ∧
    (∃ fr : StackEntry, fr.project = A ∧
      (switchProject s now name false template none).2.projectStack = fr :: s.projectStack) ∧
    (returnToPrevious (switchProject s now name false template none).2).1.success = true ∧
    (returnToPrevious (switchProject s now name false template none).2).1.project = some A ∧
    (returnToPrevious (switchProject s now name false template none).2).2.projectStack
      = s.projectStack := by
  rw [switchProject_miss s now name template hmiss]
  obtain ⟨fr, hfr, hps⟩ := pushCurrent_stack_of_some now hA
  obtain ⟨hsucc, hproj, _, hstk⟩ := returnToPrevious_cons hps
  rw [hfr] at hproj
  exact ⟨rfl, pushCurrent_current s now, pushCurrent_cache s now,
    ⟨fr, hfr, hps⟩, hsucc, hproj, hstk⟩

/-- C7: for a proposal id present in the pending table, confirming twice in
succession returns success the first time and the not-found failure the second
time, because confirmation removes the proposal from the table. -/
theorem C7_confirm_twice_stale_id
    (s : ManagerState) (now now2 : Nat) (id : String) (prop : UpdateProposal)
    (mods mods2 : Option (List (String × JsonVal)))
    (hfound : alGet s.pendingUpdates id = some prop) :
    (confirmUpdate s now id mods).1.success = true ∧
    (confirmUpdate (confirmUpdate s now id mods).2 now2 id mods2).1.success = false ∧
    (confirmUpdate (confirmUpdate s now id mods).2 now2 id mods2).1.message
      = "Update proposal not found or expired" := by
  rw [confirmUpdate_found s now id mods prop hfound]
  have hnone : alGet (alDelete s.pendingUpdates id) id = none :=
    alGet_alDelete_self s.pendingUpdates id
  rw [confirmUpdate_notFound _ now2 id mods2 hnone]
  exact ⟨rfl, rfl, rfl⟩

/-- C8: the explicit-override rule fires before the continuation heuristic and
keyword scoring, so `classify("switch to research mode", context)` returns
mode `research` with confidence `0.95` for every context value. -/
theorem C8_classifier_explicit_override (context : Option ConversationContext) :
    (classify "switch to research mode" context).mode = "research" ∧
    (classify "switch to research mode" context).confidence = 95/100 :=
  ⟨rfl, rfl⟩

/-- Witness for C6 at a concrete run: switch from `alpha` to a fresh project
`beta`, mutate `beta` by a confirmed progress update, then return. -/
theorem C6_witness :
    (returnToPrevious (applyWOps (switchProject wState 1 "beta" true none none).2
        [WOp.propose 2 "u1" "progress"
          (JsonVal.obj [("newTasks", JsonVal.arr [JsonVal.str "t1"])]) none,
         WOp.confirm 3 "u1" none])).1.success = true ∧
    (returnToPrevious (applyWOps (switchProject wState 1 "beta" true none none).2
        [WOp.propose 2 "u1" "progress"
          (JsonVal.obj [("newTasks", JsonVal.arr [JsonVal.str "t1"])]) none,
         WOp.confirm 3 "u1" none])).1.project = some wProject ∧
    (returnToPrevious (applyWOps (switchProject wState 1 "beta" true none none).2
        [WOp.propose 2 "u1" "progress"
          (JsonVal.obj [("newTasks", JsonVal.arr [JsonVal.str "t1"])]) none,
         WOp.confirm 3 "u1" none])).2.currentProject = some wProject :=
  C6_switch_return_round_trip wState 1 wProject "beta" true none none
    [WOp.propose 2 "u1" "progress"
      (JsonVal.obj [("newTasks", JsonVal.arr [JsonVal.str "t1"])]) none,
     WOp.confirm 3 "u1" none] rfl rfl

/-- Witness for C10 at a concrete cache miss. -/
theorem C10_witness :
    (switchProject wState 0 "missing" false none none).1.success = false ∧
    (switchProject wState 0 "missing" false none none).2.currentProject
      = wState.currentProject ∧
    (switchProject wState 0 "missing" false none none).2.projectCache
      = wState.projectCache ∧
    (∃ fr : StackEntry, fr.project = wProject ∧
      (switchProject wState 0 "missing" false none none).2.projectStack
        = fr :: wState.projectStack) ∧
    (returnToPrevious (switchProject wState 0 "missing" false none none).2).1.success
      = true ∧
    (returnToPrevious (switchProject wState 0 "missing" false none none).2).1.project
      = some wProject ∧
    (returnToPrevious (switchProject wState 0 "missing" false none none).2).2.projectStack
      = wState.projectStack :=
  C10_failed_switch_pushes_stack wState 0 wProject "missing" none rfl rfl

/-- Witness for C7 at a concrete propose/confirm/confirm run. -/
theorem C7_witness :
    (confirmUpdate wS1 5 "u1" none).1.success = true ∧
    (confirmUpdate (confirmUpdate wS1 5 "u1" none).2 6 "u1" none).1.success = false ∧
    (confirmUpdate (confirmUpdate wS1 5 "u1" none).2 6 "u1" none).1.message
      = "Update proposal not found or expired" :=
  C7_confirm_twice_stale_id wS1 5 6 "u1" wProp none none rfl

/-- C1: on any payload the sensitive-data validator rejects, `proposeUpdate`
throws the security error listing the offending findings and leaves the whole
state — in particular the pending-updates table — unchanged. -/
theorem C1_propose_rejects_sensitive_payload
    (s : ManagerState) (now : Nat) (freshId updateType : String) (updates : JsonVal)
    (projectName : Option String)
    (herr : (validateForSensitiveData updates none).errors ≠ []) :
    (proposeUpdate s now freshId updateType updates projectName).1 =
      Except.error (securityErrorMessage (validateForSensitiveData updates none).errors) ∧
    (proposeUpdate s now freshId updateType updates projectName).2 = s := by
  have hv : (validateForSensitiveData updates none).isValid = false := by
    cases hb : (validateForSensitiveData updates none).isValid
    · rfl
    · exact absurd (vsd_isValid_true_errors updates none hb) herr
  rw [proposeUpdate_invalid s now freshId updateType updates projectName hv]
  exact ⟨rfl, rfl⟩

/-- Witness for C1 at the claim's example payload. -/
theorem C1_witness :
    (proposeUpdate wState 0 "u1" "progress" c1Payload none).1 =
      Except.error (securityErrorMessage (validateForSensitiveData c1Payload none).errors) ∧
    (proposeUpdate wState 0 "u1" "progress" c1Payload none).2 = wState :=
  C1_propose_rejects_sensitive_payload wState 0 "u1" "progress" c1Payload none (by decide)

/-- Counterexample to C2 as stated: a proposal created at time 0 and confirmed
at time 600000 (ten minutes later) with no intervening call still commits
successfully, because `confirmUpdate` performs no expiry check — the sweep runs
only inside `proposeUpdate`. -/
theorem C2_counterexample_confirm_succeeds_after_expiry :
    (confirmUpdate wS1 600000 "u1" none).1.success = true ∧
    (confirmUpdate wS1 600000 "u1" none).1.message
      = "Successfully applied progress update to alpha" :=
  ⟨rfl, rfl⟩

/-- C2 (amended): the five-minute TTL is enforced lazily by the sweep of the
next `proposeUpdate` call.  If a later propose succeeds (valid payload,
resolvable target, fresh id) strictly more than five minutes after a pending
proposal was created, that proposal is swept, and confirming it afterwards
returns the not-found failure. -/
theorem C2_amended_ttl_sweep
    (s : ManagerState) (now now2 : Nat) (oldId freshId ty : String) (u : JsonVal)
    (pn : Option String) (prop : UpdateProposal) (p : ProjectContext)
    (mods : Option (List (String × JsonVal)))
    (hnodup : (s.pendingUpdates.map Prod.fst).Nodup)
    (hold : alGet s.pendingUpdates oldId = some prop)
    (hexp : prop.timestamp + 5 * 60 * 1000 < now)
    (hid : ¬(freshId = oldId))
    (hvalid : (validateForSensitiveData u none).isValid = true)
    (htarget : resolveTarget s pn = some p) :
    alGet (proposeUpdate s now freshId ty u pn).2.pendingUpdates oldId = none ∧
    (confirmUpdate (proposeUpdate s now freshId ty u pn).2 now2 oldId mods).1.success
      = false ∧
    (confirmUpdate (proposeUpdate s now freshId ty u pn).2 now2 oldId mods).1.message
      = "Update proposal not found or expired" := by
  rw [proposeUpdate_ok s now freshId ty u pn p hvalid htarget]
  have hfind : ∃ y, s.pendingUpdates.find? (fun e => e.1 == oldId) = some y ∧ y.2 = prop := by
    unfold alGet at hold
    cases hf : s.pendingUpdates.find? (fun e => e.1 == oldId) with
    | none => rw [hf] at hold; exact absurd hold (by simp)
    | some y => rw [hf] at hold; exact ⟨y, rfl, by simpa using hold⟩
  obtain ⟨y, hy, hy2⟩ := hfind
  have hnone :
      alGet (sweep now (alSet s.pendingUpdates freshId (buildProposal now freshId ty u p)))
        oldId = none := by
    unfold alGet sweep
    rw [find?_filter_eq_none]
    · rfl
    · intro x hx hxk
      rcases mem_alSet hx with h | h
      · exact absurd (by rw [h] at hxk; exact beq_iff_eq.mp hxk) hid
      · have hxy : x = y := found_key_unique hnodup hy x h (beq_iff_eq.mp hxk)
        rw [hxy]
        have : y.2.timestamp < now - 5 * 60 * 1000 := by rw [hy2]; omega
        simpa using this
  refine ⟨hnone, ?_, ?_⟩ <;>
    rw [confirmUpdate_notFound _ now2 oldId mods hnone]

/-- Witness for C2 (amended) at a concrete run: proposal `u1` created at 0,
a second propose at 600001 sweeps it, and confirming `u1` then fails. -/
theorem C2_witness :
    alGet (proposeUpdate wS1 600001 "u2" "progress" (JsonVal.obj [])
        none).2.pendingUpdates "u1" = none ∧
    (confirmUpdate (proposeUpdate wS1 600001 "u2" "progress" (JsonVal.obj [])
        none).2 600002 "u1" none).1.success = false ∧
    (confirmUpdate (proposeUpdate wS1 600001 "u2" "progress" (JsonVal.obj [])
        none).2 600002 "u1" none).1.message
      = "Update proposal not found or expired" :=
  C2_amended_ttl_sweep wS1 600001 600002 "u1" "u2" "progress" (JsonVal.obj []) none
    wProp wProject none (by decide) rfl (by decide) (by decide) rfl rfl

theorem switchProject_create (s : ManagerState) (now : Nat) (name : String)
    (template : Option String) (hmiss : alGet s.projectCache name = none) :
    switchProject s now name true template none =
      (⟨true, some (createProjectFromTemplate name template now),
        "Switched to project: " ++ name,
        [stateSetInstr "project" name
          (projectContextJson (createProjectFromTemplate name template now))]⟩,
       { pushCurrent s now with
          currentProject := some (createProjectFromTemplate name template now),
          projectCache :=
            alSet (alSet s.projectCache name (createProjectFromTemplate name template now))
              name (createProjectFromTemplate name template now) }) := by
  unfold switchProject
  dsimp only
  rw [pushCurrent_cache, hmiss]
  rfl

/-- Counterexample to C4 as stated: creating a project from the `ml` template
yields an empty `openTasks` list — no built-in template seeds any tasks, so the
claimed non-empty seed task list does not exist. -/
theorem C4_counterexample_ml_template_tasks_empty :
    (switchProject emptyState 0 "foo" true (some "ml") none).1.success = true ∧
    ((switchProject emptyState 0 "foo" true (some "ml") none).1.project.map
      (fun p => p.openTasks)) = some [] :=
  ⟨rfl, rfl⟩

/-- C4 (amended): `switchProject(name, createIfNotExists = true, 'ml')` on a
cache miss succeeds and produces the `ml` template project, whose
`metadata.problemType` exists and equals the empty string and whose
`openTasks` list is empty (the templates define metadata skeletons but no
seed tasks). -/
theorem C4_amended_ml_template_fields
    (s : ManagerState) (now : Nat) (name : String)
    (hmiss : alGet s.projectCache name = none) :
    (switchProject s now name true (some "ml") none).1.success = true ∧
    (switchProject s now name true (some "ml") none).1.project =
      some (createProjectFromTemplate name (some "ml") now) ∧
    ((createProjectFromTemplate name (some "ml") now).metadata.bind
      (fun m => alGet m "problemType")) = some (JsonVal.str "") ∧
    (createProjectFromTemplate name (some "ml") now).openTasks = [] := by
  rw [switchProject_create s now name (some "ml") hmiss]
  exact ⟨rfl, rfl, rfl, rfl⟩

/-- Witness for C4 (amended) at a concrete creation. -/
theorem C4_witness :
    (switchProject emptyState 0 "foo" true (some "ml") none).1.success = true ∧
    (switchProject emptyState 0 "foo" true (some "ml") none).1.project =
      some (createProjectFromTemplate "foo" (some "ml") 0) ∧
    ((createProjectFromTemplate "foo" (some "ml") 0).metadata.bind
      (fun m => alGet m "problemType")) = some (JsonVal.str "") ∧
    (createProjectFromTemplate "foo" (some "ml") 0).openTasks = [] :=
  C4_amended_ml_template_fields emptyState 0 "foo" rfl

/-- C9 (implicit): `confirmUpdate` never runs the sensitive-data validator —
for every pending proposal and every modifications object it commits the
shallow merge of the modifications onto the proposed context as the current
and cached project and emits both persistence instructions, whatever the
modifications contain; the gate applies only at `proposeUpdate`. -/
theorem C9_confirm_skips_validation
    (s : ManagerState) (now : Nat) (id : String) (prop : UpdateProposal)
    (mods : List (String × JsonVal))
    (hfound : alGet s.pendingUpdates id = some prop) :
    (confirmUpdate s now id (some mods)).1.success = true ∧
    (confirmUpdate s now id (some mods)).2.currentProject =
      some (applyMods prop.proposedContext mods) ∧
    alGet (confirmUpdate s now id (some mods)).2.projectCache prop.projectName =
      some (applyMods prop.proposedContext mods) ∧
    (confirmUpdate s now id (some mods)).1.instructions =
      [stateSetInstr "project" prop.projectName
        (projectContextJson (applyMods prop.proposedContext mods)),
       stateSetInstr "system" "last_session_context"
        (sessionContextJson (confirmSessionUpdate now prop
          (applyMods prop.proposedContext mods)))] := by
  rw [confirmUpdate_found s now id (some mods) prop hfound]
  exact ⟨rfl, rfl, alGet_alSet_self s.projectCache prop.projectName _, rfl⟩

/-- Witness for C9 at a concrete run, with modifications the validator
rejects: the validator flags them, yet the confirm commits them. -/
theorem C9_witness :
    (validateForSensitiveData (JsonVal.obj c9Mods) none).isValid = false ∧
    ((confirmUpdate wS1 5 "u1" (some c9Mods)).1.success = true ∧
     (confirmUpdate wS1 5 "u1" (some c9Mods)).2.currentProject =
       some (applyMods wProp.proposedContext c9Mods) ∧
     alGet (confirmUpdate wS1 5 "u1" (some c9Mods)).2.projectCache wProp.projectName =
       some (applyMods wProp.proposedContext c9Mods) ∧
     (confirmUpdate wS1 5 "u1" (some c9Mods)).1.instructions =
       [stateSetInstr "project" wProp.projectName
         (projectContextJson (applyMods wProp.proposedContext c9Mods)),
        stateSetInstr "system" "last_session_context"
         (sessionContextJson (confirmSessionUpdate 5 wProp
           (applyMods wProp.proposedContext c9Mods)))]) :=
  ⟨by decide, C9_confirm_skips_validation wS1 5 "u1" wProp c9Mods rfl⟩

theorem buildProposal_id (now : Nat) (freshId ty : String) (u : JsonVal)
    (p : ProjectContext) : (buildProposal now freshId ty u p).id = freshId := rfl

theorem buildProposal_timestamp (now : Nat) (freshId ty : String) (u : JsonVal)
    (p : ProjectContext) : (buildProposal now freshId ty u p).timestamp = now := rfl

theorem applyUpdateType_progress_single (p : ProjectContext) (t : String) (now : Nat) :
    (applyUpdateType "progress" (singleCompletedPayload t) p now).1 =
      { p with
          lastModified := now,
          openTasks := p.openTasks.filter (fun x => !(x == t)),
          completedTasks := p.completedTasks ++ [t] } := by
  have h0 : (applyUpdateType "progress" (singleCompletedPayload t) p now).1 =
      { p with
          lastModified := now,
          openTasks := p.openTasks.filter (fun task => !(([t] : List String).contains task)),
          completedTasks := p.completedTasks ++ [t] } := rfl
  rw [h0]
  have hf : p.openTasks.filter (fun task => !(([t] : List String).contains task)) =
      p.openTasks.filter (fun x => !(x == t)) := by
    apply List.filter_congr
    intro a _
    show (!(([t] : List String).contains a)) = !(a == t)
    cases hab : a == t <;> simp [List.contains, List.elem, hab]
  rw [hf]

/-- C5: completing a single open task `t` via a `progress` proposal and an
unmodified confirm removes exactly `t` from `openTasks` (preserving the order
of the rest), appends it to `completedTasks`, and leaves `keyDecisions` and
`milestones` untouched. -/
theorem C5_progress_confirm_postcondition
    (s : ManagerState) (now now2 : Nat) (freshId : String) (p : ProjectContext)
    (t : String) (prop : UpdateProposal)
    (hcur : s.currentProject = some p)
    (ht : t ∈ p.openTasks)
    (hok : (proposeUpdate s now freshId "progress" (singleCompletedPayload t) none).1
      = Except.ok prop) :
    (confirmUpdate (proposeUpdate s now freshId "progress" (singleCompletedPayload t)
        none).2 now2 prop.id none).1.success = true ∧
    ∃ q : ProjectContext,
      (confirmUpdate (proposeUpdate s now freshId "progress" (singleCompletedPayload t)
          none).2 now2 prop.id none).2.currentProject = some q ∧
      q.openTasks = p.openTasks.filter (fun x => !(x == t)) ∧
      q.completedTasks = p.completedTasks ++ [t] ∧
      t ∉ q.openTasks ∧ t ∈ q.completedTasks ∧
      q.keyDecisions = p.keyDecisions ∧ q.milestones = p.milestones := by
  have hv : (validateForSensitiveData (singleCompletedPayload t) none).isValid = true := by
    cases hb : (validateForSensitiveData (singleCompletedPayload t) none).isValid
    · rw [proposeUpdate_invalid s now freshId "progress" (singleCompletedPayload t) none hb]
        at hok
      exact absurd hok (by simp)
    · rfl
  have hp : resolveTarget s none = some p := hcur
  rw [proposeUpdate_ok s now freshId "progress" (singleCompletedPayload t) none p hv hp]
    at hok ⊢
  have hprop : Except.ok (buildProposal now freshId "progress" (singleCompletedPayload t) p)
      = Except.ok prop := hok
  have hprop' : prop = buildProposal now freshId "progress" (singleCompletedPayload t) p :=
    (Except.ok.inj hprop).symm
  subst hprop'
  have hfound :
      alGet (sweep now (alSet s.pendingUpdates freshId
          (buildProposal now freshId "progress" (singleCompletedPayload t) p))) freshId
        = some (buildProposal now freshId "progress" (singleCompletedPayload t) p) :=
    alGet_sweep_alSet_self _ now freshId _ (by rw [buildProposal_timestamp]; omega)
  rw [buildProposal_id]
  dsimp only
  rw [confirmUpdate_found _ now2 freshId none _ hfound]
  refine ⟨rfl, ?_⟩
  refine ⟨(applyUpdateType "progress" (singleCompletedPayload t) p now).1, rfl, ?_⟩
  rw [applyUpdateType_progress_single p t now]
  refine ⟨rfl, rfl, ?_, ?_, rfl, rfl⟩
  · intro hmem
    rw [List.mem_filter] at hmem
    simp at hmem
  · exact List.mem_append_right _ (List.mem_singleton.mpr rfl)

/-- Witness for C5 at a concrete run: completing task `a` of `wProject`. -/
theorem C5_witness :
    (confirmUpdate (proposeUpdate wState 0 "u9" "progress" (singleCompletedPayload "a")
        none).2 1 (buildProposal 0 "u9" "progress" (singleCompletedPayload "a")
        wProject).id none).1.success = true ∧
    ∃ q : ProjectContext,
      (confirmUpdate (proposeUpdate wState 0 "u9" "progress" (singleCompletedPayload "a")
          none).2 1 (buildProposal 0 "u9" "progress" (singleCompletedPayload "a")
          wProject).id none).2.currentProject = some q ∧
      q.openTasks = wProject.openTasks.filter (fun x => !(x == "a")) ∧
      q.completedTasks = wProject.completedTasks ++ ["a"] ∧
      "a" ∉ q.openTasks ∧ "a" ∈ q.completedTasks ∧
      q.keyDecisions = wProject.keyDecisions ∧ q.milestones = wProject.milestones :=
  C5_progress_confirm_postcondition wState 0 1 "u9" wProject "a"
    (buildProposal 0 "u9" "progress" (singleCompletedPayload "a") wProject)
    rfl (by decide) rfl

/-- Counterexample to C3 as stated: starting from a record with disjoint task
lists, a confirmed `progress` update whose `newTasks` re-adds an
already-completed task leaves the committed record with `"a"` in both
`openTasks` and `completedTasks`. -/
theorem C3_counterexample_newTasks_break_disjointness :
    stateDisjointB c3State = true ∧
    ((applyWOps c3State c3Ops).currentProject.map (fun p => p.openTasks)) = some ["a"] ∧
    ((applyWOps c3State c3Ops).currentProject.map (fun p => p.completedTasks))
      = some ["a"] ∧
    ((applyWOps c3State c3Ops).currentProject.map tasksDisjointB) = some false :=
  ⟨rfl, rfl, rfl, rfl⟩

/-- C3 (amended): starting from a state whose reachable records all have
disjoint task lists, every propose/confirm sequence preserves disjointness of
the current and cached records, provided each `progress` update's `newTasks`
avoid the target's `completedTasks` and the update's own `completedTasks`, and
each confirm passes no modifications. -/
theorem C3_amended_disjointness_preserved
    (s : ManagerState) (ops : List WOp)
    (hs : stateDisjointB s = true)
    (hrun : goodRunB s ops = true) :
    stateDisjointB (applyWOps s ops) = true :=
  (stateDisjointB_iff _).mpr
    (goodRun_preserves_disjoint ops s ((stateDisjointB_iff s).mp hs) hrun)

/-- Witness for C3 (amended) at a concrete run: completing task `a` and
confirming preserves disjointness. -/
theorem C3_witness :
    stateDisjointB (applyWOps wState
      [WOp.propose 0 "u1" "progress" (singleCompletedPayload "a") none,
       WOp.confirm 1 "u1" none]) = true :=
  C3_amended_disjointness_preserved wState
    [WOp.propose 0 "u1" "progress" (singleCompletedPayload "a") none,
     WOp.confirm 1 "u1" none] rfl (by decide)

end BrainManager

